import Mathlib

/-!
# F5 BIG-IP token secrets backend: a shallow embedding

Embedding of `pkg/bigiptoken/backend.go` and `pkg/bigiptoken/api/client.go`.

* The Vault storage (`logical.Storage`) is a key-value list with string keys. Every storage
  operation may fail, as decided by a fault oracle indexed by the number of storage operations
  performed so far; `logical.StorageEntryJSON` may fail as decided by a second oracle.
* A stored value stands for its JSON bytes and is represented by what `DecodeJSON` makes of
  them, for each of the two struct types the backend decodes into.
* The BIG-IP device is an oracle that answers each HTTP round trip as a function of the calls
  made so far; every call of a client method is appended to a call log.
* The readings of `time.Now()` are explicit arguments of the operations that read the clock.
  Instants are integers (nanoseconds since the Unix epoch); a `time.Duration` is an int64.
* The ttl of a token read is a Go `int`, taken as 64 bits wide.
* Logging has no effect on storage, the device or the responses and is left out.
-/

set_option autoImplicit false

-- Hypotheses that describe the situation of a claim are kept in the statements also where
-- the proof does not need them.
set_option linter.unusedVariables false

namespace bigiptoken

/-! ## Time -/

/-- A `time.Time` wall-clock instant, as nanoseconds since the Unix epoch. -/
structure Time where
  ns : Int
deriving DecidableEq, Repr

/-- The zero value of `time.Time` (January 1, year 1, 00:00:00 UTC). -/
def Time.zero : Time := ⟨-62135596800 * 1000000000⟩

/-- Go `t.After(u)`: t is strictly later than u. -/
def Time.After (t u : Time) : Bool := decide (u.ns < t.ns)

/-- Go `t.Unix()`: whole seconds since the epoch (rounded down). -/
def Time.Unix (t : Time) : Int := t.ns / 1000000000

/-- Go `t.Add(d)` for a `time.Duration` d in nanoseconds. -/
def Time.Add (t : Time) (d : Int) : Time := ⟨t.ns + d⟩

/-- Two's-complement wrap-around of a 64-bit signed integer operation. -/
def wrapInt64 (x : Int) : Int := (x + 9223372036854775808) % 18446744073709551616 - 9223372036854775808

/-- Go `time.Duration(ttl) * time.Second`: an int64 number of nanoseconds, with wrap-around. -/
def secondsDuration (ttl : Int) : Int := wrapInt64 (ttl * 1000000000)

/-! ## Data model -/

/-- Connection represents a connection to an F5 BIG-IP device. -/
structure Connection where
  Host : String
  Username : String
  Password : String
  InsecureSSL : Bool
deriving DecidableEq, Repr

/-- TokenEntry represents a stored F5 BIG-IP token. -/
structure TokenEntry where
  Token : String
  Host : String
  CreatedAt : Time
  ExpiresAt : Time
  IsActive : Bool
deriving DecidableEq, Repr

/-- The JSON value bytes of a `logical.StorageEntry`, represented by what `DecodeJSON` makes of
them for each of the two struct types the backend decodes into (`none`: decoding fails). -/
structure RawEntry where
  asConnection : Option Connection
  asTokenEntry : Option TokenEntry
deriving DecidableEq, Repr

/-- The bytes `json.Marshal` produces for a Connection. Decoded into a TokenEntry, only the
shared `host` key is filled in and the other fields keep their zero values. -/
def encodeConnection (c : Connection) : RawEntry :=
  { asConnection := some c
    asTokenEntry := some { Token := "", Host := c.Host, CreatedAt := Time.zero,
                           ExpiresAt := Time.zero, IsActive := false } }

/-- The bytes `json.Marshal` produces for a TokenEntry. Decoded into a Connection, only the
shared `host` key is filled in. -/
def encodeTokenEntry (t : TokenEntry) : RawEntry :=
  { asConnection := some { Host := t.Host, Username := "", Password := "", InsecureSSL := false }
    asTokenEntry := some t }

/-! ## Strings -/

/-- Go `strings.HasPrefix(s, p)`. -/
def startsWith (s p : String) : Bool := p.data.isPrefixOf s.data

/-- The part of a key after a prefix of the length of p. -/
def dropLead (s p : String) : String := ⟨s.data.drop p.data.length⟩

/-! ## Storage -/

/-- The contents of the storage: keys with their value bytes, in list order. -/
abbrev Storage := List (String × RawEntry)

/-- The entry stored under a key, if any. -/
def kvGet : Storage → String → Option RawEntry
  | [], _ => none
  | (k, v) :: rest, key => if k = key then some v else kvGet rest key

/-- Store a value under a key: an existing entry is replaced in place, a new one is added. -/
def kvPut (s : Storage) (key : String) (v : RawEntry) : Storage :=
  if (kvGet s key).isSome then s.map (fun e => if e.1 = key then (key, v) else e)
  else s ++ [(key, v)]

/-- Remove a key. -/
def kvDelete (s : Storage) (key : String) : Storage :=
  s.filter (fun e => !decide (e.1 = key))

/-- The keys under a prefix, with the prefix removed, in list order. Vault returns the keys
sorted; the order of a storage list is arbitrary here, and the theorems hold for every order.
The keys the backend writes have no further `/` after the prefix, so the folding of deeper
keys into directory entries is not modelled. -/
def kvList (s : Storage) (pre : String) : List String :=
  (s.filter (fun e => startsWith e.1 pre)).map (fun e => dropLead e.1 pre)

/-! ## The remote device -/

/-- Client represents an F5 BIG-IP API client (the HTTP client is reduced to its TLS flag). -/
structure Client where
  Host : String
  Username : String
  Password : String
  InsecureSkipVerify : Bool
deriving DecidableEq, Repr

/-- TokenResponse represents the response from a token authentication request. -/
structure TokenResponse where
  Token : String
  Timeout : Int
  ExpireAt : String
deriving DecidableEq, Repr

/-- A call of one of the client methods that talk to the device. -/
inductive RemoteCall where
  | login (c : Client)
  | updateTimeout (c : Client) (token : String) (timeout : Int)
  | revoke (c : Client) (token : String)
deriving DecidableEq, Repr

/-- The device, and the network in front of it: the outcome of each round trip, given the calls
made before it. An error carries the text of the Go error. -/
structure Remote where
  login : List RemoteCall → Client → Except String TokenResponse
  updateTimeout : List RemoteCall → Client → String → Int → Option String
  revoke : List RemoteCall → Client → String → Option String

/-- What the backend does not control: the device, storage failures (by operation count) and
failures of `logical.StorageEntryJSON`. -/
structure Env where
  remote : Remote
  storageErr : Nat → Option String
  connectionJSONErr : Connection → Option String
  tokenJSONErr : TokenEntry → Option String

/-- The state the backend acts on: storage contents, the log of device calls (oldest first) and
the number of storage operations performed. -/
structure World where
  storage : Storage
  calls : List RemoteCall
  ops : Nat
deriving DecidableEq, Repr

/-- Vault `req.Storage.Get(ctx, key)`. -/
def storageGet (env : Env) (w : World) (key : String) : Except String (Option RawEntry) × World :=
  match env.storageErr w.ops with
  | some e => (.error e, { w with ops := w.ops + 1 })
  | none => (.ok (kvGet w.storage key), { w with ops := w.ops + 1 })

/-- Vault `req.Storage.Put(ctx, entry)`: a failed put leaves the contents as they were. -/
def storagePut (env : Env) (w : World) (key : String) (v : RawEntry) : Option String × World :=
  match env.storageErr w.ops with
  | some e => (some e, { w with ops := w.ops + 1 })
  | none => (none, { w with storage := kvPut w.storage key v, ops := w.ops + 1 })

/-- Vault `req.Storage.Delete(ctx, key)`. -/
def storageDelete (env : Env) (w : World) (key : String) : Option String × World :=
  match env.storageErr w.ops with
  | some e => (some e, { w with ops := w.ops + 1 })
  | none => (none, { w with storage := kvDelete w.storage key, ops := w.ops + 1 })

/-- Vault `req.Storage.List(ctx, prefix)`. -/
def storageList (env : Env) (w : World) (pre : String) : Except String (List String) × World :=
  match env.storageErr w.ops with
  | some e => (.error e, { w with ops := w.ops + 1 })
  | none => (.ok (kvList w.storage pre), { w with ops := w.ops + 1 })

/-! ## api/client.go -/

/-- NewClient creates a new F5 BIG-IP client. -/
def NewClient (host username password : String) (insecureSSL : Bool) : Client :=
  { Host := if !startsWith host "https://" then "https://" ++ host else host
    Username := username
    Password := password
    InsecureSkipVerify := insecureSSL }

/-- UpdateTokenTimeout updates the timeout for a token. -/
def UpdateTokenTimeout (env : Env) (c : Client) (token : String) (timeout : Int) (w : World) :
    Option String × World :=
  (env.remote.updateTimeout w.calls c token timeout,
   { w with calls := w.calls ++ [RemoteCall.updateTimeout c token timeout] })

/-- RevokeToken revokes an authentication token. -/
def RevokeToken (env : Env) (c : Client) (token : String) (w : World) : Option String × World :=
  (env.remote.revoke w.calls c token, { w with calls := w.calls ++ [RemoteCall.revoke c token] })

/-- GetToken authenticates to the F5 BIG-IP and retrieves an authentication token. -/
def GetToken (env : Env) (c : Client) (timeout : Int) (w : World) :
    Except String TokenResponse × World :=
  let w1 : World := { w with calls := w.calls ++ [RemoteCall.login c] }
  match env.remote.login w.calls c with
  | .error e => (.error e, w1)
  | .ok tokenResp =>
    if timeout > 0 then
      match UpdateTokenTimeout env c tokenResp.Token timeout w1 with
      | (some e, w2) => (.error ("error updating token timeout: " ++ e), w2)
      | (none, w2) => (.ok { tokenResp with Timeout := timeout }, w2)
    else (.ok tokenResp, w1)

/-! ## Responses -/

/-- A scalar value in response data. A formatted time (`Format(time.RFC3339)`, which has second
precision) is represented by its Unix seconds. -/
inductive Scalar where
  | str (s : String)
  | bool (b : Bool)
  | int (i : Int)
  | rfc3339 (unixSeconds : Int)
deriving DecidableEq, Repr

/-- One `map[string]interface{}` of scalars. -/
abbrev Detail := List (String × Scalar)

/-- A value in the data of a response. -/
inductive Value where
  | scalar (s : Scalar)
  | strings (l : List String)
  | details (l : List Detail)
deriving DecidableEq, Repr

/-- A `logical.Response`, reduced to its data map. -/
structure Response where
  Data : List (String × Value)
deriving DecidableEq, Repr

/-- Vault `logical.ErrorResponse(text)`. -/
def ErrorResponse (text : String) : Response := ⟨[("error", .scalar (.str text))]⟩

/-- Vault `resp.IsError()`: the data holds the error key alone. -/
def Response.IsError (r : Response) : Bool :=
  r.Data.length == 1 && (r.Data.lookup "error").isSome

/-- Vault `logical.ListResponse(keys)`. -/
def ListResponse (keys : List String) : Response :=
  if keys.length != 0 then ⟨[("keys", .strings keys)]⟩ else ⟨[]⟩

/-- What a path callback returns, `(*logical.Response, error)`: a Go error, a nil response with
a nil error, or a response. -/
inductive Reply where
  | err (e : String)
  | nil
  | resp (r : Response)
deriving DecidableEq, Repr

/-- The callback ended without a Go error and without an error response. -/
def Reply.succeeded : Reply → Bool
  | .err _ => false
  | .nil => true
  | .resp r => !r.IsError

/-! ## backend.go -/

/-- The text of a `DecodeJSON` error. -/
def decodeErrText : String := "json: cannot decode entry"

/-- The fields of a `config/connection/<name>` write request; `none` is a field that was not
set (`data.GetOk` reports false). -/
structure ConnectionFields where
  name : String
  host : Option String
  username : Option String
  password : Option String
  insecure_ssl : Option Bool
deriving DecidableEq, Repr

/-- Handles config/connection write operations. -/
def pathConnectionWrite (env : Env) (data : ConnectionFields) (w : World) : Reply × World :=
  let name := data.name
  if name = "" then (.resp (ErrorResponse "connection name cannot be empty"), w) else
  let host := data.host.getD ""
  let username := data.username.getD ""
  let password := data.password.getD ""
  let insecureSSL := data.insecure_ssl.getD false
  if host = "" ∨ username = "" ∨ password = "" then
    (.resp (ErrorResponse "host, username, and password are required"), w)
  else
  let connection : Connection :=
    { Host := host, Username := username, Password := password, InsecureSSL := insecureSSL }
  let client := NewClient host username password insecureSSL
  match GetToken env client 60 w with
  | (.error e, w1) => (.resp (ErrorResponse ("failed to connect to F5 BIG-IP: " ++ e)), w1)
  | (.ok tokenResp, w1) =>
    let w2 := (RevokeToken env client tokenResp.Token w1).2
    match env.connectionJSONErr connection with
    | some e => (.err e, w2)
    | none =>
      match storagePut env w2 ("config/connection/" ++ name) (encodeConnection connection) with
      | (some e, w3) => (.err e, w3)
      | (none, w3) =>
        (.resp ⟨[("success", .scalar (.bool true)), ("host", .scalar (.str host)),
                 ("status", .scalar (.str "Connection configured and tested successfully"))]⟩, w3)

/-- Handles config/connection read operations. -/
def pathConnectionRead (env : Env) (name : String) (w : World) : Reply × World :=
  if name = "" then (.resp (ErrorResponse "connection name cannot be empty"), w) else
  match storageGet env w ("config/connection/" ++ name) with
  | (.error e, w1) => (.err e, w1)
  | (.ok none, w1) => (.nil, w1)
  | (.ok (some entry), w1) =>
    match entry.asConnection with
    | none => (.err decodeErrText, w1)
    | some connection =>
      (.resp ⟨[("host", .scalar (.str connection.Host)),
               ("username", .scalar (.str connection.Username)),
               ("insecure_ssl", .scalar (.bool connection.InsecureSSL))]⟩, w1)

/-- Handles config/connection delete operations. -/
def pathConnectionDelete (env : Env) (name : String) (w : World) : Reply × World :=
  if name = "" then (.resp (ErrorResponse "connection name cannot be empty"), w) else
  match storageDelete env w ("config/connection/" ++ name) with
  | (some e, w1) => (.err e, w1)
  | (none, w1) => (.nil, w1)

/-- Handles config/connections list operations. -/
def pathConnectionList (env : Env) (w : World) : Reply × World :=
  match storageList env w "config/connection/" with
  | (.error e, w1) => (.err e, w1)
  | (.ok connections, w1) => (.resp (ListResponse connections), w1)

/-- Creates an F5 API client from a named connection configuration. -/
def getF5Client (env : Env) (w : World) (name : String) : Except String Client × World :=
  match storageGet env w ("config/connection/" ++ name) with
  | (.error e, w1) => (.error e, w1)
  | (.ok none, w1) => (.error ("connection " ++ name ++ " not found"), w1)
  | (.ok (some entry), w1) =>
    match entry.asConnection with
    | none => (.error decodeErrText, w1)
    | some connection =>
      (.ok (NewClient connection.Host connection.Username connection.Password
              connection.InsecureSSL), w1)

/-- The token ID that a token read generates: `fmt.Sprintf("token_%s_%d", name, unix)`. -/
def tokenIDFor (name : String) (t : Time) : String :=
  "token_" ++ name ++ "_" ++ toString t.Unix

/-- Handles token/ read operations to generate tokens. The three clock readings are those of
the three `time.Now()` calls, in program order: for the token ID, for the expiration time and
for CreatedAt. -/
def pathTokenRead (env : Env) (name : String) (ttl : Int) (tID tExp tCreated : Time)
    (w : World) : Reply × World :=
  if name = "" then (.resp (ErrorResponse "connection name cannot be empty"), w) else
  let tokenID := tokenIDFor name tID
  match getF5Client env w name with
  | (.error e, w1) => (.resp (ErrorResponse ("error getting F5 client: " ++ e)), w1)
  | (.ok client, w1) =>
    match GetToken env client ttl w1 with
    | (.error e, w2) => (.resp (ErrorResponse ("error generating token: " ++ e)), w2)
    | (.ok tokenResp, w2) =>
      let expiresAt := tExp.Add (secondsDuration ttl)
      let tokenEntry : TokenEntry :=
        { Token := tokenResp.Token, Host := name, CreatedAt := tCreated,
          ExpiresAt := expiresAt, IsActive := true }
      match env.tokenJSONErr tokenEntry with
      | some e => (.err e, (RevokeToken env client tokenResp.Token w2).2)
      | none =>
        match storagePut env w2 ("tokens/" ++ tokenID) (encodeTokenEntry tokenEntry) with
        | (some e, w3) => (.err e, (RevokeToken env client tokenResp.Token w3).2)
        | (none, w3) =>
          (.resp ⟨[("token_id", .scalar (.str tokenID)),
                   ("token", .scalar (.str tokenResp.Token)),
                   ("host", .scalar (.str name)),
                   ("expires_at", .scalar (.rfc3339 expiresAt.Unix)),
                   ("ttl", .scalar (.int ttl))]⟩, w3)

/-- The body of the loop of cleanupExpiredTokens for one token ID. -/
def cleanupStep (env : Env) (now : Time) (w : World) (tokenID : String) : World :=
  match storageGet env w ("tokens/" ++ tokenID) with
  | (.error _, w1) => w1
  | (.ok none, w1) => w1
  | (.ok (some tokenEntryRaw), w1) =>
    match tokenEntryRaw.asTokenEntry with
    | none => w1
    | some tokenEntry =>
      if !tokenEntry.IsActive then w1
      else if now.After tokenEntry.ExpiresAt then
        match getF5Client env w1 tokenEntry.Host with
        | (.error _, w2) => w2
        | (.ok client, w2) =>
          let w3 := (RevokeToken env client tokenEntry.Token w2).2
          let tokenEntry1 : TokenEntry := { tokenEntry with IsActive := false }
          match env.tokenJSONErr tokenEntry1 with
          | some _ => w3
          | none => (storagePut env w3 ("tokens/" ++ tokenID) (encodeTokenEntry tokenEntry1)).2
      else w1

/-- The periodic function that cleans up expired tokens; `now` is its one clock reading. The
result is the returned error, if any. -/
def cleanupExpiredTokens (env : Env) (now : Time) (w : World) : Option String × World :=
  match storageList env w "tokens/" with
  | (.error e, w1) => (some e, w1)
  | (.ok tokenIDs, w1) => (none, tokenIDs.foldl (cleanupStep env now) w1)

/-- The state of the loop of pathTokensListRead: the world, the number of clock readings taken
and the details collected. -/
structure ListLoop where
  world : World
  reads : Nat
  tokenDetails : List Detail

/-- The body of the loop of pathTokensListRead for one token ID; `clock k` is the reading of
the k-th `time.Now()` call of the request. -/
def tokensListStep (env : Env) (clock : Nat → Time) (st : ListLoop) (tokenID : String) :
    ListLoop :=
  match storageGet env st.world ("tokens/" ++ tokenID) with
  | (.error _, w1) => { st with world := w1 }
  | (.ok none, w1) => { st with world := w1 }
  | (.ok (some tokenEntryRaw), w1) =>
    match tokenEntryRaw.asTokenEntry with
    | none => { st with world := w1 }
    | some tokenEntry =>
      if !tokenEntry.IsActive then { st with world := w1 }
      else if (clock st.reads).After tokenEntry.ExpiresAt then
        { st with world := w1, reads := st.reads + 1 }
      else
        { world := w1
          reads := st.reads + 1
          tokenDetails := st.tokenDetails ++
            [[("token_id", .str tokenID), ("host", .str tokenEntry.Host),
              ("created_at", .rfc3339 tokenEntry.CreatedAt.Unix),
              ("expires_at", .rfc3339 tokenEntry.ExpiresAt.Unix),
              ("active", .bool tokenEntry.IsActive)]] }

/-- Handles tokens/ read operations. -/
def pathTokensListRead (env : Env) (clock : Nat → Time) (w : World) : Reply × World :=
  match storageList env w "tokens/" with
  | (.error e, w1) => (.err e, w1)
  | (.ok tokens, w1) =>
    let st := tokens.foldl (tokensListStep env clock) ⟨w1, 0, []⟩
    (.resp ⟨[("tokens", .details st.tokenDetails)]⟩, st.world)

/-! ## Sequences of operations -/

/-- A request to the backend, or a run of the periodic function, with the clock readings it
takes. -/
inductive Op where
  | tokenRead (name : String) (ttl : Int) (tID tExp tCreated : Time)
  | cleanup (now : Time)
  | tokensList (clock : Nat → Time)
  | connectionWrite (data : ConnectionFields)
  | connectionRead (name : String)
  | connectionDelete (name : String)
  | connectionList

/-- The world after one operation. -/
def Op.run (env : Env) (w : World) : Op → World
  | .tokenRead name ttl tID tExp tCreated => (pathTokenRead env name ttl tID tExp tCreated w).2
  | .cleanup now => (cleanupExpiredTokens env now w).2
  | .tokensList clock => (pathTokensListRead env clock w).2
  | .connectionWrite data => (pathConnectionWrite env data w).2
  | .connectionRead name => (pathConnectionRead env name w).2
  | .connectionDelete name => (pathConnectionDelete env name w).2
  | .connectionList => (pathConnectionList env w).2

/-- The world after a finite sequence of operations. -/
def runOps (env : Env) (w : World) (ops : List Op) : World :=
  ops.foldl (Op.run env) w

/-- The active flag of the token record stored under a token ID: `none` when there is no entry
or it does not decode. -/
def activeFlag (s : Storage) (tokenID : String) : Option Bool :=
  ((kvGet s ("tokens/" ++ tokenID)).bind (fun e => e.asTokenEntry)).map (fun t => t.IsActive)

/-- The token record stored under a token ID, if one decodes. -/
def tokenRecord (s : Storage) (tokenID : String) : Option TokenEntry :=
  (kvGet s ("tokens/" ++ tokenID)).bind (fun e => e.asTokenEntry)

/-- The op is a token read that generates the given token ID. -/
def Op.generates (tokenID : String) : Op → Bool
  | .tokenRead name _ tID _ _ => decide (tokenIDFor name tID = tokenID)
  | _ => false

/-! ## The clean-up loop when storage does not fail

A description of one round of the loop of cleanupExpiredTokens as a function of the storage
alone; `cleanupStep_ok` below proves that the loop body computes it when no storage operation
fails. -/

/-- The record that one round of the clean-up loop revokes and deactivates when storage does
not fail, with the client it resolves: the record under the token ID decodes, is active, has
`now` after its ExpiresAt, and the connection named by its Host is stored and decodes. -/
def expiredRecord (now : Time) (s : Storage) (tokenID : String) : Option (Client × TokenEntry) :=
  match tokenRecord s tokenID with
  | none => none
  | some te =>
    if te.IsActive && now.After te.ExpiresAt then
      match (kvGet s ("config/connection/" ++ te.Host)).bind (fun e => e.asConnection) with
      | none => none
      | some conn => some (NewClient conn.Host conn.Username conn.Password conn.InsecureSSL, te)
    else none

/-- The storage after one round of the clean-up loop when storage does not fail. -/
def sweepStorage (now : Time) (s : Storage) (tokenID : String) : Storage :=
  match expiredRecord now s tokenID with
  | none => s
  | some (_, te) => kvPut s ("tokens/" ++ tokenID) (encodeTokenEntry { te with IsActive := false })

/-- The device calls of one round of the clean-up loop when storage does not fail. -/
def sweepCalls (now : Time) (s : Storage) (tokenID : String) : List RemoteCall :=
  match expiredRecord now s tokenID with
  | none => []
  | some (c, te) => [RemoteCall.revoke c te.Token]

/-- The device calls of the clean-up loop over a list of token IDs when storage does not
fail. -/
def passCalls (now : Time) : Storage → List String → List RemoteCall
  | _, [] => []
  | s, tokenID :: rest => sweepCalls now s tokenID ++ passCalls now (sweepStorage now s tokenID) rest

/-! ## Concrete devices and states -/

/-- A device that accepts every call; a login returns a token named after the number of calls
made before it. -/
def acceptingRemote : Remote :=
  { login := fun hist _ => .ok ⟨"T" ++ toString hist.length, 1200, ""⟩
    updateTimeout := fun _ _ _ _ => none
    revoke := fun _ _ _ => none }

/-- A device that cannot be reached: every call fails. -/
def unreachableRemote : Remote :=
  { login := fun _ _ => .error "error making token request: connection refused"
    updateTimeout := fun _ _ _ _ => some "error making timeout update request: connection refused"
    revoke := fun _ _ _ => some "error making token revocation request: connection refused" }

/-- A device that accepts logins and rejects every change of a token timeout. -/
def timeoutRejectingRemote : Remote :=
  { acceptingRemote with
    updateTimeout := fun _ _ _ _ => some "error updating token timeout: 400 Bad Request - " }

/-- A device that accepts logins and timeout changes and rejects every revocation. -/
def revokeRejectingRemote : Remote :=
  { acceptingRemote with
    revoke := fun _ _ _ => some "error revoking token: 500 Internal Server Error - " }

/-- An environment in which storage and JSON encoding never fail. -/
def reliableEnv (r : Remote) : Env :=
  { remote := r
    storageErr := fun _ => none
    connectionJSONErr := fun _ => none
    tokenJSONErr := fun _ => none }

/-- The connection of the scenarios of the specification. -/
def lab1 : Connection :=
  { Host := "bigip.example", Username := "admin", Password := "secret", InsecureSSL := false }

/-- A fresh backend in which only the connection lab1 is configured. -/
def lab1World : World :=
  { storage := [("config/connection/lab1", encodeConnection lab1)], calls := [], ops := 0 }

/-- The client that getF5Client builds for lab1. -/
def lab1Client : Client :=
  { Host := "https://bigip.example", Username := "admin", Password := "secret",
    InsecureSkipVerify := false }

/-- A clock reading: s seconds and n nanoseconds after the epoch. -/
def clockAt (s n : Int) : Time := ⟨s * 1000000000 + n⟩

/-- A first token read for lab1 with the given ttl, whose three clock readings fall 0, 1 and 2
nanoseconds into second 100. -/
def firstIssue (ttl : Int) : Op :=
  .tokenRead "lab1" ttl (clockAt 100 0) (clockAt 100 1) (clockAt 100 2)

/-- The world after lab1 was configured and one token with ttl 5 was issued in second 100. -/
def issuedWorld : World := runOps (reliableEnv acceptingRemote) lab1World [firstIssue 5]

/-- The world after a token with ttl 0 was issued in second 100 and the periodic function ran
half a second later. -/
def sweptWorld : World :=
  runOps (reliableEnv acceptingRemote) lab1World [firstIssue 0, .cleanup (clockAt 100 500000000)]

/-- A second token read for lab1 with ttl 5 late in second 100, after the first one. -/
def secondIssue : Reply × World :=
  pathTokenRead (reliableEnv acceptingRemote) "lab1" 5 (clockAt 100 900000000)
    (clockAt 100 900000001) (clockAt 100 900000002) issuedWorld

/-- Requests that follow: a listing, a run of the periodic function, a token read one second
later, a rewrite of lab1, reads and a deletion of the connection. -/
def laterOps : List Op :=
  [ .tokensList (fun _ => clockAt 100 600000000),
    .cleanup (clockAt 100 700000000),
    .tokenRead "lab1" 5 (clockAt 101 0) (clockAt 101 1) (clockAt 101 2),
    .connectionWrite ⟨"lab1", some "bigip.example", some "admin", some "secret", none⟩,
    .connectionRead "lab1",
    .connectionList,
    .connectionDelete "lab1",
    .cleanup (clockAt 200 0) ]

/-- A record for lab1 with remote token A that expired at second 105. -/
def old1Record : TokenEntry := ⟨"A", "lab1", clockAt 100 0, clockAt 105 0, true⟩

/-- A record for lab1 with remote token B that expired at second 105. -/
def old2Record : TokenEntry := ⟨"B", "lab1", clockAt 100 0, clockAt 105 0, true⟩

/-- A record with remote token D that expired at second 105 and names the connection `gone`. -/
def orphanRecord : TokenEntry := ⟨"D", "gone", clockAt 100 0, clockAt 105 0, true⟩

/-- A record for lab1 with remote token C that expires at second 200. -/
def liveRecord : TokenEntry := ⟨"C", "lab1", clockAt 100 0, clockAt 200 0, true⟩

/-- The world of the reconciliation scenarios: lab1 is configured; `old1` and `old2` (remote
tokens A and B, for lab1) expired at second 105; `live` (remote token C, for lab1) expires at
second 200; `orphan` (remote token D) expired at second 105 and names a connection `gone`
that is not stored. -/
def ledgerWorld : World :=
  { storage :=
      [ ("config/connection/lab1", encodeConnection lab1),
        ("tokens/old1", encodeTokenEntry old1Record),
        ("tokens/orphan", encodeTokenEntry orphanRecord),
        ("tokens/live", encodeTokenEntry liveRecord),
        ("tokens/old2", encodeTokenEntry old2Record) ]
    calls := []
    ops := 0 }

/-! ## The listing, in the words of its claim -/

/-- The item that the token listing shows for a record: token_id, host, created_at,
expires_at and active, and nothing else. The remote token value is no argument of it. -/
def tokenDetail (tokenID host : String) (createdAt expiresAt : Time) (active : Bool) : Detail :=
  [("token_id", .str tokenID), ("host", .str host), ("created_at", .rfc3339 createdAt.Unix),
   ("expires_at", .rfc3339 expiresAt.Unix), ("active", .bool active)]

/-- The item of the listing for a token ID at time now, following the claim: there is one if
the record under the token ID decodes, has IsActive = true and is not expired at now (now is
not after its ExpiresAt), and none otherwise. -/
def liveDetail (now : Time) (s : Storage) (tokenID : String) : Option Detail :=
  match tokenRecord s tokenID with
  | none => none
  | some te =>
    if te.IsActive = true ∧ now.After te.ExpiresAt = false then
      some (tokenDetail tokenID te.Host te.CreatedAt te.ExpiresAt te.IsActive)
    else none

/-- The value bytes with the remote token value of the token record blanked out. -/
def RawEntry.withoutToken (v : RawEntry) : RawEntry :=
  { v with asTokenEntry := v.asTokenEntry.map (fun t => { t with Token := "" }) }

/-- The storage with the remote token value of every record blanked out. -/
def eraseTokens (s : Storage) : Storage :=
  s.map (fun e => (e.1, e.2.withoutToken))

/-- The listing request of the scenarios: every clock reading shows second 106. -/
def listingClock : Nat → Time := fun _ => clockAt 106 0

/-- The scenario ledger with a deactivated record `done` (remote token E, for lab1) added. -/
def mixedWorld : World :=
  { ledgerWorld with
    storage := ledgerWorld.storage ++
      [("tokens/done", encodeTokenEntry ⟨"E", "lab1", clockAt 100 0, clockAt 300 0, false⟩)] }

/-! ## The frame of the periodic function -/

/-- The storage `s1` comes from `s` by deactivating active token records and nothing else:
the keys are the same, in the same order, and under each key the value is the one of `s`, or
the key is a token key whose record was active in `s` and the value is that record encoded
with IsActive = false. -/
def DeactivatedFrom (s s1 : Storage) : Prop :=
  s1.map Prod.fst = s.map Prod.fst ∧
  ∀ k, kvGet s1 k = kvGet s k ∨
    ∃ tokenID te, k = "tokens/" ++ tokenID ∧ tokenRecord s tokenID = some te ∧
      te.IsActive = true ∧ kvGet s1 k = some (encodeTokenEntry { te with IsActive := false })

/-! # Lemmas -/

theorem startsWith_append (p x : String) : startsWith (p ++ x) p = true := by
  simp [startsWith, String.data_append]

theorem dropLead_append (p x : String) : dropLead (p ++ x) p = x := by
  simp [dropLead, String.data_append]

theorem append_left_cancel {p a b : String} (h : p ++ a = p ++ b) : a = b := by
  have h1 := congrArg String.data h
  simp only [String.data_append, List.append_cancel_left_eq] at h1
  exact String.ext h1

theorem tokens_ne_connection (a b : String) : "tokens/" ++ a ≠ "config/connection/" ++ b := by
  intro h
  have h1 := congrArg String.data h
  simp [String.data_append] at h1

theorem kvGet_mem_keys {s : Storage} {k : String} {v : RawEntry} (h : kvGet s k = some v) :
    k ∈ s.map Prod.fst := by
  induction s with
  | nil => simp [kvGet] at h
  | cons e rest ih =>
    obtain ⟨k1, v1⟩ := e
    by_cases hk : k1 = k
    · simp [hk]
    · simp only [kvGet, hk, if_false] at h
      simp [ih h]

theorem kvGet_isSome_iff (s : Storage) (k : String) :
    (kvGet s k).isSome = true ↔ k ∈ s.map Prod.fst := by
  induction s with
  | nil => simp [kvGet]
  | cons e rest ih =>
    obtain ⟨k1, v1⟩ := e
    by_cases hk : k1 = k
    · simp [kvGet, hk]
    · have hk2 : ¬ k = k1 := fun h => hk h.symm
      simp [kvGet, hk, hk2, ih]

theorem kvGet_cons (e : String × RawEntry) (rest : Storage) (key : String) :
    kvGet (e :: rest) key = if e.1 = key then some e.2 else kvGet rest key := by
  cases e; rfl

theorem kvGet_map_replace (s : Storage) (k : String) (v : RawEntry) (k1 : String) :
    kvGet (s.map (fun e => if e.1 = k then (k, v) else e)) k1 =
      if k1 = k then (if (kvGet s k).isSome then some v else none) else kvGet s k1 := by
  induction s with
  | nil => simp [kvGet]
  | cons e rest ih =>
    simp only [List.map_cons, kvGet_cons, ih]
    by_cases h2 : e.1 = k
    · by_cases h1 : k1 = k
      · simp [h2, h1]
      · have h3 : ¬ k = k1 := fun h => h1 h.symm
        simp [h2, h1, h3]
    · by_cases h1 : k1 = k
      · have h3 : ¬ e.1 = k1 := fun h => h2 (h.trans h1)
        simp [h2, h1, h3]
      · simp [h2, h1]

theorem kvGet_append (s t : Storage) (k : String) :
    kvGet (s ++ t) k = (kvGet s k).orElse (fun _ => kvGet t k) := by
  induction s with
  | nil => simp [kvGet]
  | cons e rest ih =>
    obtain ⟨k2, v2⟩ := e
    by_cases h : k2 = k
    · simp [kvGet, h]
    · simp [kvGet, h, ih]

theorem kvGet_kvPut_same (s : Storage) (k : String) (v : RawEntry) :
    kvGet (kvPut s k v) k = some v := by
  unfold kvPut
  by_cases h : (kvGet s k).isSome = true
  · simp [h, kvGet_map_replace]
  · simp only [h]
    rw [if_neg (by simp), kvGet_append]
    have : kvGet s k = none := by simpa using h
    simp [this, kvGet]

theorem kvGet_kvPut_ne (s : Storage) {k k1 : String} (v : RawEntry) (h : k1 ≠ k) :
    kvGet (kvPut s k v) k1 = kvGet s k1 := by
  unfold kvPut
  by_cases h0 : (kvGet s k).isSome = true
  · simp [h0, kvGet_map_replace, h]
  · rw [if_neg h0, kvGet_append]
    have h2 : ¬ k = k1 := fun e => h e.symm
    cases hq : kvGet s k1 <;> simp [kvGet, h2]

theorem kvPut_keys_of_mem (s : Storage) (k : String) (v : RawEntry)
    (h : (kvGet s k).isSome = true) : (kvPut s k v).map Prod.fst = s.map Prod.fst := by
  unfold kvPut
  rw [if_pos h, List.map_map]
  apply List.map_congr_left
  intro e _
  by_cases he : e.1 = k <;> simp [he]

theorem kvGet_kvDelete_ne (s : Storage) {k k1 : String} (h : k1 ≠ k) :
    kvGet (kvDelete s k) k1 = kvGet s k1 := by
  induction s with
  | nil => simp [kvDelete, kvGet]
  | cons e rest ih =>
    obtain ⟨k2, v2⟩ := e
    unfold kvDelete at ih ⊢
    by_cases h2 : k2 = k
    · have h3 : ¬ k2 = k1 := fun e => h (e.symm.trans h2)
      simp [List.filter_cons, h2, kvGet, h3, ih]
      subst h2
      simp [h3]
    · simp [List.filter_cons, h2, kvGet, ih]

theorem mem_kvList_of_get {s : Storage} {pre tokenID : String} {v : RawEntry}
    (h : kvGet s (pre ++ tokenID) = some v) : tokenID ∈ kvList s pre := by
  have hm := kvGet_mem_keys h
  simp only [List.mem_map] at hm
  obtain ⟨e, he, hk⟩ := hm
  simp only [kvList, List.mem_map, List.mem_filter]
  exact ⟨e, ⟨he, by rw [hk]; exact startsWith_append _ _⟩, by rw [hk]; exact dropLead_append _ _⟩

theorem kvList_congr {s t : Storage} (h : s.map Prod.fst = t.map Prod.fst) (pre : String) :
    kvList s pre = kvList t pre := by
  have e1 : ∀ u : Storage, kvList u pre =
      ((u.map Prod.fst).filter (fun k => startsWith k pre)).map (fun k => dropLead k pre) := by
    intro u
    simp [kvList, List.filter_map, List.map_map, Function.comp_def]
  rw [e1, e1, h]

theorem cleanupStep_ok (env : Env) (now : Time) (w : World) (tokenID : String)
    (hS : ∀ k, env.storageErr k = none) (hJ : ∀ t, env.tokenJSONErr t = none) :
    (cleanupStep env now w tokenID).storage = sweepStorage now w.storage tokenID ∧
    (cleanupStep env now w tokenID).calls = w.calls ++ sweepCalls now w.storage tokenID := by
  unfold cleanupStep sweepStorage sweepCalls expiredRecord tokenRecord
  simp only [storageGet, getF5Client, RevokeToken, storagePut, hS, hJ]
  cases h1 : kvGet w.storage ("tokens/" ++ tokenID) with
  | none => simp
  | some raw =>
    cases h2 : raw.asTokenEntry with
    | none => simp [h2]
    | some te =>
      cases h3 : te.IsActive with
      | false => simp [h2, h3]
      | true =>
        cases h4 : now.After te.ExpiresAt with
        | false => simp [h2, h3, h4]
        | true =>
          cases h5 : kvGet w.storage ("config/connection/" ++ te.Host) with
          | none => simp [h2, h3, h4, h5]
          | some craw =>
            cases h6 : craw.asConnection with
            | none => simp [h2, h3, h4, h5, h6]
            | some conn => simp [h2, h3, h4, h5, h6]

theorem cleanupStep_cases (env : Env) (now : Time) (w : World) (tokenID : String) :
    (cleanupStep env now w tokenID).storage = w.storage ∨
    ∃ te, tokenRecord w.storage tokenID = some te ∧ te.IsActive = true ∧
      now.After te.ExpiresAt = true ∧
      (cleanupStep env now w tokenID).storage =
        kvPut w.storage ("tokens/" ++ tokenID) (encodeTokenEntry { te with IsActive := false }) := by
  unfold cleanupStep tokenRecord
  simp only [storageGet, getF5Client, RevokeToken, storagePut]
  cases h0 : env.storageErr w.ops with
  | some e => simp
  | none =>
    cases h1 : kvGet w.storage ("tokens/" ++ tokenID) with
    | none => simp
    | some raw =>
      cases h2 : raw.asTokenEntry with
      | none => simp [h2]
      | some te =>
        cases h3 : te.IsActive with
        | false => simp [h2, h3]
        | true =>
          cases h4 : now.After te.ExpiresAt with
          | false => simp [h2, h3, h4]
          | true =>
            cases h7 : env.storageErr (w.ops + 1) with
            | some e => simp [h2, h3, h4, h7]
            | none =>
              cases h5 : kvGet w.storage ("config/connection/" ++ te.Host) with
              | none => simp [h2, h3, h4, h5, h7]
              | some craw =>
                cases h6 : craw.asConnection with
                | none => simp [h2, h3, h4, h5, h6, h7]
                | some conn =>
                  cases h8 : env.tokenJSONErr { te with IsActive := false } with
                  | some e => simp [h2, h3, h4, h5, h6, h7, h8]
                  | none =>
                    cases h9 : env.storageErr (w.ops + 1 + 1) with
                    | some e => simp [h2, h3, h4, h5, h6, h7, h8, h9]
                    | none => simp [h2, h3, h4, h5, h6, h7, h8, h9]

theorem tokenRecord_kvPut_same (s : Storage) (tokenID : String) (te : TokenEntry) :
    tokenRecord (kvPut s ("tokens/" ++ tokenID) (encodeTokenEntry te)) tokenID = some te := by
  simp [tokenRecord, kvGet_kvPut_same, encodeTokenEntry]

theorem tokenRecord_kvPut_ne (s : Storage) {tokenID other : String} (v : RawEntry)
    (h : other ≠ tokenID) :
    tokenRecord (kvPut s ("tokens/" ++ tokenID) v) other = tokenRecord s other := by
  have hk : "tokens/" ++ other ≠ "tokens/" ++ tokenID := fun e => h (append_left_cancel e)
  simp [tokenRecord, kvGet_kvPut_ne s v hk]

theorem kvGet_connection_kvPut_tokens (s : Storage) (tokenID name : String) (v : RawEntry) :
    kvGet (kvPut s ("tokens/" ++ tokenID) v) ("config/connection/" ++ name) =
      kvGet s ("config/connection/" ++ name) :=
  kvGet_kvPut_ne s v (fun e => tokens_ne_connection tokenID name e.symm)

theorem expiredRecord_some {now : Time} {s : Storage} {tokenID : String} {c : Client}
    {te : TokenEntry} (h : expiredRecord now s tokenID = some (c, te)) :
    tokenRecord s tokenID = some te ∧ te.IsActive = true ∧ now.After te.ExpiresAt = true ∧
    ∃ raw conn, kvGet s ("config/connection/" ++ te.Host) = some raw ∧
      raw.asConnection = some conn ∧
      c = NewClient conn.Host conn.Username conn.Password conn.InsecureSSL := by
  unfold expiredRecord at h
  cases h1 : tokenRecord s tokenID with
  | none => simp [h1] at h
  | some t =>
    simp only [h1] at h
    by_cases h2 : (t.IsActive && now.After t.ExpiresAt) = true
    · simp only [h2, if_true] at h
      cases h3 : kvGet s ("config/connection/" ++ t.Host) with
      | none => simp [h3] at h
      | some raw =>
        cases h4 : raw.asConnection with
        | none => simp [h3, h4] at h
        | some conn =>
          simp only [h3, Option.some_bind, h4, Option.some.injEq, Prod.mk.injEq] at h
          obtain ⟨hc, ht⟩ := h
          subst ht
          simp only [Bool.and_eq_true] at h2
          exact ⟨rfl, h2.1, h2.2, raw, conn, h3, h4, hc.symm⟩
    · simp [h2] at h

theorem expiredRecord_intro {now : Time} {s : Storage} {tokenID : String} {te : TokenEntry}
    {raw : RawEntry} {conn : Connection}
    (h1 : tokenRecord s tokenID = some te) (h2 : te.IsActive = true)
    (h3 : now.After te.ExpiresAt = true)
    (h4 : kvGet s ("config/connection/" ++ te.Host) = some raw)
    (h5 : raw.asConnection = some conn) :
    expiredRecord now s tokenID =
      some (NewClient conn.Host conn.Username conn.Password conn.InsecureSSL, te) := by
  simp [expiredRecord, h1, h2, h3, h4, h5]

theorem expiredRecord_sweep (now : Time) (s : Storage) (tokenID other : String) :
    expiredRecord now (sweepStorage now s tokenID) other =
      if other = tokenID then none else expiredRecord now s other := by
  unfold sweepStorage
  cases h : expiredRecord now s tokenID with
  | none =>
    by_cases ho : other = tokenID
    · simp [ho, h]
    · simp [ho]
  | some p =>
    obtain ⟨c, te⟩ := p
    by_cases ho : other = tokenID
    · subst ho
      simp [expiredRecord, tokenRecord_kvPut_same]
    · simp only [ho, if_false]
      unfold expiredRecord
      simp only [tokenRecord_kvPut_ne s _ ho, kvGet_connection_kvPut_tokens]

theorem kvGet_sweep_ne (now : Time) (s : Storage) (tokenID : String) {k : String}
    (h : k ≠ "tokens/" ++ tokenID) : kvGet (sweepStorage now s tokenID) k = kvGet s k := by
  unfold sweepStorage
  cases h1 : expiredRecord now s tokenID with
  | none => rfl
  | some p => exact kvGet_kvPut_ne s _ h

theorem sweep_of_none {now : Time} {s : Storage} {tokenID : String}
    (h : expiredRecord now s tokenID = none) :
    sweepStorage now s tokenID = s ∧ sweepCalls now s tokenID = [] := by
  simp [sweepStorage, sweepCalls, h]

theorem tokenRecord_isSome_get {s : Storage} {tokenID : String} {te : TokenEntry}
    (h : tokenRecord s tokenID = some te) : (kvGet s ("tokens/" ++ tokenID)).isSome = true := by
  unfold tokenRecord at h
  cases h1 : kvGet s ("tokens/" ++ tokenID) with
  | none => simp [h1] at h
  | some v => rfl

theorem sweep_keys (now : Time) (s : Storage) (tokenID : String) :
    (sweepStorage now s tokenID).map Prod.fst = s.map Prod.fst := by
  unfold sweepStorage
  cases h1 : expiredRecord now s tokenID with
  | none => rfl
  | some p =>
    obtain ⟨c, te⟩ := p
    exact kvPut_keys_of_mem s _ _ (tokenRecord_isSome_get (expiredRecord_some h1).1)

theorem tokenRecord_sweep_same {now : Time} {s : Storage} {tokenID : String} {c : Client}
    {te : TokenEntry} (h : expiredRecord now s tokenID = some (c, te)) :
    tokenRecord (sweepStorage now s tokenID) tokenID = some { te with IsActive := false } := by
  simp [sweepStorage, h, tokenRecord_kvPut_same]

/-! ### The loop as a whole -/

theorem fold_sweep_keys (now : Time) (ids : List String) (s : Storage) :
    (ids.foldl (sweepStorage now) s).map Prod.fst = s.map Prod.fst := by
  induction ids generalizing s with
  | nil => rfl
  | cons x xs ih => simp only [List.foldl_cons, ih, sweep_keys]

theorem fold_sweep_get_of_none (now : Time) (ids : List String) (s : Storage)
    (tokenID : String) (h : expiredRecord now s tokenID = none) :
    kvGet (ids.foldl (sweepStorage now) s) ("tokens/" ++ tokenID) =
      kvGet s ("tokens/" ++ tokenID) := by
  induction ids generalizing s with
  | nil => rfl
  | cons x xs ih =>
    simp only [List.foldl_cons]
    have h1 : expiredRecord now (sweepStorage now s x) tokenID = none := by
      rw [expiredRecord_sweep]; split <;> simp [h]
    rw [ih _ h1]
    by_cases hx : x = tokenID
    · subst hx; rw [(sweep_of_none h).1]
    · exact kvGet_sweep_ne now s x (fun e => hx (append_left_cancel e).symm)

theorem fold_sweep_get_other (now : Time) (ids : List String) (s : Storage) (k : String)
    (h : ∀ tokenID ∈ ids, k ≠ "tokens/" ++ tokenID) :
    kvGet (ids.foldl (sweepStorage now) s) k = kvGet s k := by
  induction ids generalizing s with
  | nil => rfl
  | cons x xs ih =>
    simp only [List.foldl_cons]
    rw [ih _ (fun t ht => h t (List.mem_cons_of_mem _ ht))]
    exact kvGet_sweep_ne now s x (h x (List.mem_cons_self _ _))

theorem fold_sweep_expired (now : Time) (ids : List String) (s : Storage) (tokenID : String) :
    expiredRecord now (ids.foldl (sweepStorage now) s) tokenID =
      if tokenID ∈ ids then none else expiredRecord now s tokenID := by
  induction ids generalizing s with
  | nil => simp
  | cons x xs ih =>
    simp only [List.foldl_cons, ih, expiredRecord_sweep, List.mem_cons]
    by_cases h1 : tokenID ∈ xs
    · simp [h1]
    · by_cases h2 : tokenID = x <;> simp [h1, h2]

theorem fold_sweep_done (now : Time) (ids : List String) (s : Storage) (tokenID : String)
    (c : Client) (te : TokenEntry) (hmem : tokenID ∈ ids)
    (h : expiredRecord now s tokenID = some (c, te)) :
    tokenRecord (ids.foldl (sweepStorage now) s) tokenID = some { te with IsActive := false } ∧
    RemoteCall.revoke c te.Token ∈ passCalls now s ids := by
  induction ids generalizing s with
  | nil => simp at hmem
  | cons x xs ih =>
    simp only [List.foldl_cons, passCalls, List.mem_append]
    by_cases hx : x = tokenID
    · subst hx
      constructor
      · have h1 : expiredRecord now (sweepStorage now s x) x = none := by
          rw [expiredRecord_sweep]; simp
        have h2 := fold_sweep_get_of_none now xs _ x h1
        unfold tokenRecord
        rw [h2]
        exact tokenRecord_sweep_same h
      · left; simp [sweepCalls, h]
    · have hmem1 : tokenID ∈ xs := by
        rcases List.mem_cons.mp hmem with e | e
        · exact absurd e.symm hx
        · exact e
      have h1 : expiredRecord now (sweepStorage now s x) tokenID = some (c, te) := by
        rw [expiredRecord_sweep, if_neg (fun e => hx e.symm)]; exact h
      obtain ⟨a, b⟩ := ih _ hmem1 h1
      exact ⟨a, Or.inr b⟩

theorem passCalls_mem (now : Time) (ids : List String) (s : Storage) (call : RemoteCall)
    (h : call ∈ passCalls now s ids) :
    ∃ tokenID c te, tokenID ∈ ids ∧ expiredRecord now s tokenID = some (c, te) ∧
      call = RemoteCall.revoke c te.Token := by
  induction ids generalizing s with
  | nil => simp [passCalls] at h
  | cons x xs ih =>
    simp only [passCalls, List.mem_append] at h
    rcases h with h | h
    · unfold sweepCalls at h
      cases h1 : expiredRecord now s x with
      | none => simp [h1] at h
      | some p =>
        obtain ⟨c, te⟩ := p
        simp only [h1, List.mem_singleton] at h
        exact ⟨x, c, te, List.mem_cons_self _ _, h1, h⟩
    · obtain ⟨t, c, te, hm, he, hc⟩ := ih _ h
      rw [expiredRecord_sweep] at he
      by_cases ht : t = x
      · simp [ht] at he
      · rw [if_neg ht] at he
        exact ⟨t, c, te, List.mem_cons_of_mem _ hm, he, hc⟩

theorem fold_sweep_idle (now : Time) (ids : List String) (s : Storage)
    (h : ∀ tokenID ∈ ids, expiredRecord now s tokenID = none) :
    ids.foldl (sweepStorage now) s = s ∧ passCalls now s ids = [] := by
  induction ids generalizing s with
  | nil => simp [passCalls]
  | cons x xs ih =>
    have hx := sweep_of_none (h x (List.mem_cons_self _ _))
    simp only [List.foldl_cons, passCalls, hx.1, hx.2, List.nil_append]
    exact ih s (fun t ht => h t (List.mem_cons_of_mem _ ht))

theorem cleanup_fold_ok (env : Env) (now : Time) (hS : ∀ k, env.storageErr k = none)
    (hJ : ∀ t, env.tokenJSONErr t = none) (ids : List String) (w : World) :
    (ids.foldl (cleanupStep env now) w).storage = ids.foldl (sweepStorage now) w.storage ∧
    (ids.foldl (cleanupStep env now) w).calls = w.calls ++ passCalls now w.storage ids := by
  induction ids generalizing w with
  | nil => simp [passCalls]
  | cons x xs ih =>
    obtain ⟨a, b⟩ := cleanupStep_ok env now w x hS hJ
    obtain ⟨c, d⟩ := ih (cleanupStep env now w x)
    simp only [List.foldl_cons, passCalls]
    rw [c, d, a, b, List.append_assoc]
    exact ⟨rfl, rfl⟩

theorem cleanup_ok (env : Env) (now : Time) (w : World) (hS : ∀ k, env.storageErr k = none)
    (hJ : ∀ t, env.tokenJSONErr t = none) :
    (cleanupExpiredTokens env now w).1 = none ∧
    (cleanupExpiredTokens env now w).2.storage =
      (kvList w.storage "tokens/").foldl (sweepStorage now) w.storage ∧
    (cleanupExpiredTokens env now w).2.calls =
      w.calls ++ passCalls now w.storage (kvList w.storage "tokens/") := by
  unfold cleanupExpiredTokens
  simp only [storageList, hS]
  obtain ⟨a, b⟩ := cleanup_fold_ok env now hS hJ (kvList w.storage "tokens/")
    { w with ops := w.ops + 1 }
  exact ⟨trivial, a, b⟩

/-! ### Effects of the single operations on the storage -/

theorem storageGet_storage (env : Env) (w : World) (k : String) :
    (storageGet env w k).2.storage = w.storage := by
  unfold storageGet; cases env.storageErr w.ops <;> rfl

theorem storageList_storage (env : Env) (w : World) (k : String) :
    (storageList env w k).2.storage = w.storage := by
  unfold storageList; cases env.storageErr w.ops <;> rfl

theorem storagePut_storage (env : Env) (w : World) (k : String) (v : RawEntry) :
    ((storagePut env w k v).1 = none ∧ (storagePut env w k v).2.storage = kvPut w.storage k v) ∨
    ((storagePut env w k v).1 ≠ none ∧ (storagePut env w k v).2.storage = w.storage) := by
  unfold storagePut; cases env.storageErr w.ops <;> simp

theorem storagePut_eq {env : Env} {w : World} {k : String} {v : RawEntry} {r : Option String}
    {w1 : World} (h : storagePut env w k v = (r, w1)) :
    (r = none ∧ w1.storage = kvPut w.storage k v) ∨ (r ≠ none ∧ w1.storage = w.storage) := by
  have := storagePut_storage env w k v
  rw [h] at this
  exact this

theorem storageDelete_storage (env : Env) (w : World) (k : String) :
    (storageDelete env w k).2.storage = w.storage ∨
    (storageDelete env w k).2.storage = kvDelete w.storage k := by
  unfold storageDelete; cases env.storageErr w.ops <;> simp

theorem getF5Client_storage (env : Env) (w : World) (name : String) :
    (getF5Client env w name).2.storage = w.storage := by
  unfold getF5Client
  rcases h : storageGet env w ("config/connection/" ++ name) with ⟨r, w1⟩
  have hw : w1.storage = w.storage := by
    have := storageGet_storage env w ("config/connection/" ++ name); rw [h] at this; exact this
  cases r with
  | error e => exact hw
  | ok o =>
    cases o with
    | none => exact hw
    | some entry => cases h2 : entry.asConnection <;> simp only [h2] <;> exact hw

theorem RevokeToken_storage (env : Env) (c : Client) (token : String) (w : World) :
    (RevokeToken env c token w).2.storage = w.storage := rfl

theorem GetToken_storage (env : Env) (c : Client) (timeout : Int) (w : World) :
    (GetToken env c timeout w).2.storage = w.storage := by
  unfold GetToken UpdateTokenTimeout
  cases env.remote.login w.calls c with
  | error e => rfl
  | ok tokenResp =>
    by_cases ht : timeout > 0
    · simp only [ht, if_true]
      cases env.remote.updateTimeout (w.calls ++ [RemoteCall.login c]) c tokenResp.Token timeout
        <;> rfl
    · simp only [ht, if_false]

theorem pathTokenRead_storage_cases (env : Env) (name : String) (ttl : Int)
    (tID tExp tCreated : Time) (w : World) :
    ((pathTokenRead env name ttl tID tExp tCreated w).1.succeeded = false ∧
      (pathTokenRead env name ttl tID tExp tCreated w).2.storage = w.storage) ∨
    ∃ tokenResp : TokenResponse,
      (pathTokenRead env name ttl tID tExp tCreated w).1.succeeded = true ∧
      (pathTokenRead env name ttl tID tExp tCreated w).1 =
        .resp ⟨[("token_id", .scalar (.str (tokenIDFor name tID))),
                ("token", .scalar (.str tokenResp.Token)),
                ("host", .scalar (.str name)),
                ("expires_at", .scalar (.rfc3339 (tExp.Add (secondsDuration ttl)).Unix)),
                ("ttl", .scalar (.int ttl))]⟩ ∧
      (pathTokenRead env name ttl tID tExp tCreated w).2.storage =
      kvPut w.storage ("tokens/" ++ tokenIDFor name tID)
        (encodeTokenEntry { Token := tokenResp.Token, Host := name, CreatedAt := tCreated,
                            ExpiresAt := tExp.Add (secondsDuration ttl), IsActive := true }) := by
  unfold pathTokenRead
  by_cases hn : name = ""
  · left; simp [hn, Reply.succeeded, ErrorResponse, Response.IsError, List.lookup]
  · simp only [hn, if_false]
    rcases hg : getF5Client env w name with ⟨r1, w1⟩
    have hw1 : w1.storage = w.storage := by
      have := getF5Client_storage env w name; rw [hg] at this; exact this
    cases r1 with
    | error e => left; simp [hw1, Reply.succeeded, ErrorResponse, Response.IsError, List.lookup]
    | ok client =>
      simp only []
      rcases ht : GetToken env client ttl w1 with ⟨r2, w2⟩
      have hw2 : w2.storage = w.storage := by
        have := GetToken_storage env client ttl w1; rw [ht] at this; rw [this, hw1]
      cases r2 with
      | error e => left; simp [hw2, Reply.succeeded, ErrorResponse, Response.IsError, List.lookup]
      | ok tokenResp =>
        simp only []
        split
        next e _ => left; simp [RevokeToken, hw2, Reply.succeeded]
        next _ =>
          split
          next e w3 hp =>
            left
            have hp3 := storagePut_eq hp
            rcases hp3 with ⟨a, _⟩ | ⟨_, b⟩
            · simp at a
            · simp [RevokeToken, b, hw2, Reply.succeeded]
          next w3 hp =>
            right
            have hp3 := storagePut_eq hp
            rcases hp3 with ⟨_, b⟩ | ⟨a, _⟩
            · exact ⟨tokenResp, by simp [Reply.succeeded, Response.IsError], rfl, by rw [b, hw2]⟩
            · simp at a

theorem activeFlag_eq (s : Storage) (tokenID : String) :
    activeFlag s tokenID = (tokenRecord s tokenID).map (fun t => t.IsActive) := rfl

theorem activeFlag_congr {s t : Storage} {tokenID : String}
    (h : kvGet s ("tokens/" ++ tokenID) = kvGet t ("tokens/" ++ tokenID)) :
    activeFlag s tokenID = activeFlag t tokenID := by
  simp [activeFlag, h]

theorem cleanupStep_get_inactive (env : Env) (now : Time) (w : World) (tokenID other : String)
    (h : activeFlag w.storage other = some false) :
    kvGet (cleanupStep env now w tokenID).storage ("tokens/" ++ other) =
      kvGet w.storage ("tokens/" ++ other) := by
  rcases cleanupStep_cases env now w tokenID with h1 | ⟨te, h1, h2, _, h4⟩
  · rw [h1]
  · rw [h4]
    by_cases hx : other = tokenID
    · subst hx
      rw [activeFlag_eq, h1] at h
      simp [h2] at h
    · exact kvGet_kvPut_ne _ _ (fun e => hx (append_left_cancel e))

theorem cleanup_fold_get_inactive (env : Env) (now : Time) (ids : List String) (w : World)
    (other : String) (h : activeFlag w.storage other = some false) :
    kvGet (ids.foldl (cleanupStep env now) w).storage ("tokens/" ++ other) =
      kvGet w.storage ("tokens/" ++ other) := by
  induction ids generalizing w with
  | nil => rfl
  | cons x xs ih =>
    have h1 := cleanupStep_get_inactive env now w x other h
    simp only [List.foldl_cons]
    rw [ih _ (by rw [activeFlag_congr h1]; exact h), h1]

theorem cleanup_get_inactive (env : Env) (now : Time) (w : World) (other : String)
    (h : activeFlag w.storage other = some false) :
    kvGet (cleanupExpiredTokens env now w).2.storage ("tokens/" ++ other) =
      kvGet w.storage ("tokens/" ++ other) := by
  unfold cleanupExpiredTokens
  rcases hl : storageList env w "tokens/" with ⟨r, w1⟩
  have hw : w1.storage = w.storage := by
    have := storageList_storage env w "tokens/"; rw [hl] at this; exact this
  cases r with
  | error e => simp only [hw]
  | ok ids =>
    simp only []
    rw [cleanup_fold_get_inactive env now ids w1 other (by rw [hw]; exact h), hw]

theorem tokensListStep_storage (env : Env) (clock : Nat → Time) (st : ListLoop)
    (tokenID : String) :
    (tokensListStep env clock st tokenID).world.storage = st.world.storage := by
  unfold tokensListStep
  rcases h : storageGet env st.world ("tokens/" ++ tokenID) with ⟨r, w1⟩
  have hw : w1.storage = st.world.storage := by
    have := storageGet_storage env st.world ("tokens/" ++ tokenID); rw [h] at this; exact this
  cases r with
  | error e => exact hw
  | ok o =>
    cases o with
    | none => exact hw
    | some raw =>
      simp only []
      split
      · exact hw
      · split
        · exact hw
        · split <;> exact hw

theorem tokensList_fold_storage (env : Env) (clock : Nat → Time) (ids : List String)
    (st : ListLoop) :
    (ids.foldl (tokensListStep env clock) st).world.storage = st.world.storage := by
  induction ids generalizing st with
  | nil => rfl
  | cons x xs ih => simp only [List.foldl_cons, ih, tokensListStep_storage]

theorem pathTokensListRead_storage (env : Env) (clock : Nat → Time) (w : World) :
    (pathTokensListRead env clock w).2.storage = w.storage := by
  unfold pathTokensListRead
  rcases hl : storageList env w "tokens/" with ⟨r, w1⟩
  have hw : w1.storage = w.storage := by
    have := storageList_storage env w "tokens/"; rw [hl] at this; exact this
  cases r with
  | error e => exact hw
  | ok ids =>
    simp only []
    rw [tokensList_fold_storage]
    exact hw

theorem pathConnectionRead_storage (env : Env) (name : String) (w : World) :
    (pathConnectionRead env name w).2.storage = w.storage := by
  unfold pathConnectionRead
  by_cases hn : name = ""
  · simp [hn]
  · simp only [hn, if_false]
    rcases h : storageGet env w ("config/connection/" ++ name) with ⟨r, w1⟩
    have hw : w1.storage = w.storage := by
      have := storageGet_storage env w ("config/connection/" ++ name); rw [h] at this; exact this
    cases r with
    | error e => exact hw
    | ok o =>
      cases o with
      | none => exact hw
      | some entry => cases h2 : entry.asConnection <;> simp only [h2] <;> exact hw

theorem pathConnectionList_storage (env : Env) (w : World) :
    (pathConnectionList env w).2.storage = w.storage := by
  unfold pathConnectionList
  rcases hl : storageList env w "config/connection/" with ⟨r, w1⟩
  have hw : w1.storage = w.storage := by
    have := storageList_storage env w "config/connection/"; rw [hl] at this; exact this
  cases r <;> exact hw

theorem pathConnectionDelete_storage (env : Env) (name : String) (w : World) :
    (pathConnectionDelete env name w).2.storage = w.storage ∨
    (pathConnectionDelete env name w).2.storage =
      kvDelete w.storage ("config/connection/" ++ name) := by
  unfold pathConnectionDelete
  by_cases hn : name = ""
  · simp [hn]
  · simp only [hn, if_false]
    rcases h : storageDelete env w ("config/connection/" ++ name) with ⟨r, w1⟩
    have hw := storageDelete_storage env w ("config/connection/" ++ name)
    rw [h] at hw
    cases r <;> exact hw

/-- Outcome of a connection write: either it did not succeed and the storage is as before, or
it succeeded, all four fields were non-empty and the connection was put under its name. -/
theorem pathConnectionWrite_cases (env : Env) (data : ConnectionFields) (w : World) :
    ((pathConnectionWrite env data w).1.succeeded = false ∧
      (pathConnectionWrite env data w).2.storage = w.storage) ∨
    ((pathConnectionWrite env data w).1.succeeded = true ∧ data.name ≠ "" ∧
      data.host.getD "" ≠ "" ∧ data.username.getD "" ≠ "" ∧ data.password.getD "" ≠ "" ∧
      (pathConnectionWrite env data w).2.storage =
        kvPut w.storage ("config/connection/" ++ data.name)
          (encodeConnection { Host := data.host.getD "", Username := data.username.getD "",
                              Password := data.password.getD "",
                              InsecureSSL := data.insecure_ssl.getD false })) := by
  unfold pathConnectionWrite
  by_cases hn : data.name = ""
  · left; simp [hn, Reply.succeeded, ErrorResponse, Response.IsError, List.lookup]
  · simp only [hn, if_false]
    by_cases hf : data.host.getD "" = "" ∨ data.username.getD "" = "" ∨ data.password.getD "" = ""
    · left; simp [hf, Reply.succeeded, ErrorResponse, Response.IsError, List.lookup]
    · simp only [hf, if_false]
      rcases ht : GetToken env (NewClient (data.host.getD "") (data.username.getD "")
        (data.password.getD "") (data.insecure_ssl.getD false)) 60 w with ⟨r2, w2⟩
      have hw2 : w2.storage = w.storage := by
        have := GetToken_storage env (NewClient (data.host.getD "") (data.username.getD "")
          (data.password.getD "") (data.insecure_ssl.getD false)) 60 w
        rw [ht] at this; exact this
      cases r2 with
      | error e => left; simp [hw2, Reply.succeeded, ErrorResponse, Response.IsError, List.lookup]
      | ok tokenResp =>
        simp only []
        split
        next e _ => left; simp [RevokeToken, hw2, Reply.succeeded]
        next _ =>
          split
          next e w3 hp =>
            left
            rcases storagePut_eq hp with ⟨a, _⟩ | ⟨_, b⟩
            · simp at a
            · simp [b, RevokeToken, hw2, Reply.succeeded]
          next w3 hp =>
            right
            rcases storagePut_eq hp with ⟨_, b⟩ | ⟨a, _⟩
            · simp only [not_or] at hf
              refine ⟨by simp [Reply.succeeded, Response.IsError], hn, hf.1, hf.2.1, hf.2.2, ?_⟩
              rw [b]; simp [RevokeToken, hw2]
            · simp at a

theorem Op.run_get_inactive (env : Env) (w : World) (op : Op) (tokenID : String)
    (hgen : op.generates tokenID = false) (h : activeFlag w.storage tokenID = some false) :
    kvGet (op.run env w).storage ("tokens/" ++ tokenID) =
      kvGet w.storage ("tokens/" ++ tokenID) := by
  cases op with
  | tokenRead name ttl tID tExp tCreated =>
    simp only [Op.generates, decide_eq_false_iff_not] at hgen
    simp only [Op.run]
    rcases pathTokenRead_storage_cases env name ttl tID tExp tCreated w with
      ⟨_, h1⟩ | ⟨tr, _, _, h1⟩
    · rw [h1]
    · rw [h1]
      exact kvGet_kvPut_ne _ _ (fun e => hgen (append_left_cancel e).symm)
  | cleanup now => exact cleanup_get_inactive env now w tokenID h
  | tokensList clock => simp only [Op.run, pathTokensListRead_storage]
  | connectionWrite data =>
    simp only [Op.run]
    rcases pathConnectionWrite_cases env data w with ⟨_, h1⟩ | ⟨_, _, _, _, _, h1⟩
    · rw [h1]
    · rw [h1]
      exact kvGet_kvPut_ne _ _ (tokens_ne_connection _ _)
  | connectionRead name => simp only [Op.run, pathConnectionRead_storage]
  | connectionDelete name =>
    simp only [Op.run]
    rcases pathConnectionDelete_storage env name w with h1 | h1
    · rw [h1]
    · rw [h1]
      exact kvGet_kvDelete_ne _ (tokens_ne_connection _ _)
  | connectionList => simp only [Op.run, pathConnectionList_storage]

/-! ## C1: the active flag -/

/-- C1 fails as stated: starting from a backend with only lab1 configured, a token issued with
ttl 0 in second 100 is deactivated by the periodic function half a second later, and a second
token read for lab1 within the same second stores a record under the same token ID with
IsActive true. -/
theorem active_flag_reactivated :
    activeFlag sweptWorld.storage "token_lab1_100" = some false ∧
    activeFlag (runOps (reliableEnv acceptingRemote) sweptWorld
      [.tokenRead "lab1" 5 (clockAt 100 800000000) (clockAt 100 800000001)
        (clockAt 100 800000002)]).storage "token_lab1_100" = some true := by
  decide

/-- C1 (amended): a token record stored under a token ID with IsActive false still has IsActive
false under that token ID after every finite sequence of operations, whatever the device, the
storage faults, the ttl values and the clock readings, in which no token read generates that
same token ID. -/
theorem inactive_stays_inactive (env : Env) (w : World) (ops : List Op) (tokenID : String)
    (hgen : ∀ op ∈ ops, op.generates tokenID = false)
    (h : activeFlag w.storage tokenID = some false) :
    activeFlag (runOps env w ops).storage tokenID = some false := by
  unfold runOps
  induction ops generalizing w with
  | nil => exact h
  | cons op rest ih =>
    simp only [List.foldl_cons]
    apply ih
    · exact fun o ho => hgen o (List.mem_cons_of_mem _ ho)
    · rw [activeFlag_congr (Op.run_get_inactive env w op tokenID
        (hgen op (List.mem_cons_self _ _)) h)]
      exact h

/-- Witness for C1 (amended): the deactivated record of second 100 stays inactive through a
listing, further runs of the periodic function, a token read in second 101 and a rewrite, read
and deletion of its connection. -/
theorem inactive_stays_inactive_witness :
    (∀ op ∈ laterOps, op.generates "token_lab1_100" = false) ∧
    activeFlag sweptWorld.storage "token_lab1_100" = some false ∧
    activeFlag (runOps (reliableEnv acceptingRemote) sweptWorld laterOps).storage
      "token_lab1_100" = some false :=
  ⟨by decide, by decide,
   inactive_stays_inactive (reliableEnv acceptingRemote) sweptWorld laterOps "token_lab1_100"
     (by decide) (by decide)⟩

/-! ## C2: a failed probe -/

/-- C2: if the probe `client.GetToken(60)` of a connection write returns an error, the write
returns an error response and the storage is the storage before the call. -/
theorem connection_write_failed_probe (env : Env) (data : ConnectionFields) (w : World)
    (e : String)
    (hprobe : (GetToken env (NewClient (data.host.getD "") (data.username.getD "")
      (data.password.getD "") (data.insecure_ssl.getD false)) 60 w).1 = .error e) :
    (∃ r, (pathConnectionWrite env data w).1 = .resp r ∧ r.IsError = true) ∧
    (pathConnectionWrite env data w).2.storage = w.storage := by
  unfold pathConnectionWrite
  by_cases hn : data.name = ""
  · simp [hn, ErrorResponse, Response.IsError, List.lookup]
  · simp only [hn, if_false]
    by_cases hf : data.host.getD "" = "" ∨ data.username.getD "" = "" ∨ data.password.getD "" = ""
    · simp [hf, ErrorResponse, Response.IsError, List.lookup]
    · simp only [hf, if_false]
      rcases ht : GetToken env (NewClient (data.host.getD "") (data.username.getD "")
        (data.password.getD "") (data.insecure_ssl.getD false)) 60 w with ⟨r2, w2⟩
      have hw2 : w2.storage = w.storage := by
        have := GetToken_storage env (NewClient (data.host.getD "") (data.username.getD "")
          (data.password.getD "") (data.insecure_ssl.getD false)) 60 w
        rw [ht] at this; exact this
      rw [ht] at hprobe
      simp only [] at hprobe
      subst hprobe
      simp [hw2, ErrorResponse, Response.IsError, List.lookup]

/-- Witness for C2: writing lab1 against a device that cannot be reached, on an empty storage,
returns an error response and leaves the storage empty. -/
theorem connection_write_failed_probe_witness :
    (GetToken (reliableEnv unreachableRemote) (NewClient "bigip.example" "admin" "secret" false)
      60 ⟨[], [], 0⟩).1 = .error "error making token request: connection refused" ∧
    (∃ r, (pathConnectionWrite (reliableEnv unreachableRemote)
      ⟨"lab1", some "bigip.example", some "admin", some "secret", some false⟩
      ⟨[], [], 0⟩).1 = .resp r ∧ r.IsError = true) ∧
    (pathConnectionWrite (reliableEnv unreachableRemote)
      ⟨"lab1", some "bigip.example", some "admin", some "secret", some false⟩
      ⟨[], [], 0⟩).2.storage = [] :=
  ⟨rfl, connection_write_failed_probe (reliableEnv unreachableRemote)
      ⟨"lab1", some "bigip.example", some "admin", some "secret", some false⟩ ⟨[], [], 0⟩
      "error making token request: connection refused" rfl⟩

/-! ## C3: write, then read -/

/-- C3: if a connection write with name, host, username, password and an optional insecure_ssl
flag succeeds, then a following read of the same name (whose storage access does not fail)
returns a response whose host, username and insecure_ssl are the written inputs (false for an
unset flag), and whose data has these three fields only: there is no password field. -/
theorem connection_write_read (env : Env) (name host username password : String)
    (insecure_ssl : Option Bool) (w : World)
    (hw : (pathConnectionWrite env
      ⟨name, some host, some username, some password, insecure_ssl⟩ w).1.succeeded = true)
    (hget : env.storageErr (pathConnectionWrite env
      ⟨name, some host, some username, some password, insecure_ssl⟩ w).2.ops = none) :
    ∃ r, (pathConnectionRead env name (pathConnectionWrite env
        ⟨name, some host, some username, some password, insecure_ssl⟩ w).2).1 = .resp r ∧
      r.Data.lookup "host" = some (.scalar (.str host)) ∧
      r.Data.lookup "username" = some (.scalar (.str username)) ∧
      r.Data.lookup "insecure_ssl" = some (.scalar (.bool (insecure_ssl.getD false))) ∧
      r.Data.lookup "password" = none ∧
      r.Data.map Prod.fst = ["host", "username", "insecure_ssl"] := by
  rcases pathConnectionWrite_cases env
    ⟨name, some host, some username, some password, insecure_ssl⟩ w with
    ⟨h1, _⟩ | ⟨_, hn, _, _, _, hs⟩
  · rw [hw] at h1; exact absurd h1 (by simp)
  · simp only [Option.getD_some] at hs hn
    have hread : (pathConnectionRead env name (pathConnectionWrite env
        ⟨name, some host, some username, some password, insecure_ssl⟩ w).2).1 =
        .resp ⟨[("host", .scalar (.str host)), ("username", .scalar (.str username)),
                ("insecure_ssl", .scalar (.bool (insecure_ssl.getD false)))]⟩ := by
      unfold pathConnectionRead
      simp only [hn, if_false, storageGet, hget, hs, kvGet_kvPut_same, encodeConnection]
    exact ⟨_, hread, rfl, rfl, rfl, rfl, rfl⟩

/-- Witness for C3: lab1 written on an empty storage against a device that accepts every
call, then read back. -/
theorem connection_write_read_witness :
    (pathConnectionWrite (reliableEnv acceptingRemote)
      ⟨"lab1", some "bigip.example", some "admin", some "secret", some true⟩
      ⟨[], [], 0⟩).1.succeeded = true ∧
    ∃ r, (pathConnectionRead (reliableEnv acceptingRemote) "lab1"
        (pathConnectionWrite (reliableEnv acceptingRemote)
          ⟨"lab1", some "bigip.example", some "admin", some "secret", some true⟩
          ⟨[], [], 0⟩).2).1 = .resp r ∧
      r.Data.lookup "host" = some (.scalar (.str "bigip.example")) ∧
      r.Data.lookup "username" = some (.scalar (.str "admin")) ∧
      r.Data.lookup "insecure_ssl" = some (.scalar (.bool true)) ∧
      r.Data.lookup "password" = none ∧
      r.Data.map Prod.fst = ["host", "username", "insecure_ssl"] :=
  ⟨by decide, connection_write_read (reliableEnv acceptingRemote) "lab1" "bigip.example" "admin"
    "secret" (some true) ⟨[], [], 0⟩ (by decide) rfl⟩

/-! ## C4: a failed timeout adjustment -/

/-- C4, the code at the failing input: lab1 is configured, the login succeeds and creates the
remote token T0, and the device rejects the timeout change. The token read returns an error
response and stores nothing, and the only device calls are the login and the timeout change:
no revocation of T0 is attempted. -/
theorem token_read_timeout_rejected :
    pathTokenRead (reliableEnv timeoutRejectingRemote) "lab1" 3600 (clockAt 100 0) (clockAt 100 1)
        (clockAt 100 2) lab1World =
      (.resp (ErrorResponse ("error generating token: error updating token timeout: " ++
          "error updating token timeout: 400 Bad Request - ")),
       { storage := lab1World.storage
         calls := [.login lab1Client, .updateTimeout lab1Client "T0" 3600]
         ops := 1 }) ∧
    RemoteCall.revoke lab1Client "T0" ∉
      (pathTokenRead (reliableEnv timeoutRejectingRemote) "lab1" 3600 (clockAt 100 0) (clockAt 100 1)
        (clockAt 100 2) lab1World).2.calls := by
  decide

/-! ## C5: the lifetime of an issued record -/

theorem secondsDuration_eq (ttl : Int) (h0 : 0 ≤ ttl) (h1 : ttl ≤ 9223372036) :
    secondsDuration ttl = ttl * 1000000000 := by
  unfold secondsDuration wrapInt64
  omega

/-- C5 fails as stated: a token read for lab1 with ttl 5 whose clock reading for CreatedAt
comes one nanosecond after the reading used for ExpiresAt succeeds and stores a record with
ExpiresAt - CreatedAt = 4999999999 ns, one nanosecond short of 5 seconds. -/
theorem issued_lifetime_short :
    (pathTokenRead (reliableEnv acceptingRemote) "lab1" 5 (clockAt 100 0) (clockAt 100 1) (clockAt 100 2)
      lab1World).1.succeeded = true ∧
    (tokenRecord (pathTokenRead (reliableEnv acceptingRemote) "lab1" 5 (clockAt 100 0) (clockAt 100 1)
      (clockAt 100 2) lab1World).2.storage "token_lab1_100").map
        (fun te => (te.IsActive, te.ExpiresAt.ns - te.CreatedAt.ns)) = some (true, 4999999999) ∧
    (4999999999 : Int) ≠ 5 * 1000000000 := by
  decide

/-- C5 (amended): for every ttl with 0 < ttl <= 9223372036 (the seconds a `time.Duration`
can hold), when the token read succeeds, the stored TokenEntry has IsActive = true, ExpiresAt
equal to the clock reading taken for the expiration plus ttl seconds, and CreatedAt equal to
the separate, later clock reading; so ExpiresAt - CreatedAt is ttl seconds minus the time
between those two readings, and is exactly ttl seconds when the two readings coincide. -/
theorem issued_record_lifetime (env : Env) (name : String) (ttl : Int)
    (tID tExp tCreated : Time) (w : World) (h0 : 0 < ttl) (h1 : ttl ≤ 9223372036)
    (hok : (pathTokenRead env name ttl tID tExp tCreated w).1.succeeded = true) :
    ∃ te, tokenRecord (pathTokenRead env name ttl tID tExp tCreated w).2.storage
        (tokenIDFor name tID) = some te ∧
      te.IsActive = true ∧
      te.CreatedAt = tCreated ∧
      te.ExpiresAt.ns = tExp.ns + ttl * 1000000000 ∧
      te.ExpiresAt.ns - te.CreatedAt.ns = ttl * 1000000000 - (tCreated.ns - tExp.ns) ∧
      (tCreated = tExp → te.ExpiresAt.ns - te.CreatedAt.ns = ttl * 1000000000) := by
  rcases pathTokenRead_storage_cases env name ttl tID tExp tCreated w with
    ⟨h2, _⟩ | ⟨tr, _, _, hs⟩
  · rw [hok] at h2; exact absurd h2 (by simp)
  · rw [hs, tokenRecord_kvPut_same]
    refine ⟨_, rfl, rfl, rfl, ?_, ?_, ?_⟩
    · simp only [Time.Add, secondsDuration_eq ttl (le_of_lt h0) h1]
    · simp only [Time.Add, secondsDuration_eq ttl (le_of_lt h0) h1]; omega
    · intro he
      simp only [Time.Add, secondsDuration_eq ttl (le_of_lt h0) h1, he]; omega

/-- Witness for C5 (amended): the token read of the scenario, ttl 5 for lab1, with readings
1 and 2 nanoseconds into second 100. -/
theorem issued_record_lifetime_witness :
    (0 : Int) < 5 ∧ (5 : Int) ≤ 9223372036 ∧
    ∃ te, tokenRecord (pathTokenRead (reliableEnv acceptingRemote) "lab1" 5 (clockAt 100 0)
        (clockAt 100 1) (clockAt 100 2) lab1World).2.storage (tokenIDFor "lab1" (clockAt 100 0)) = some te ∧
      te.IsActive = true ∧
      te.CreatedAt = clockAt 100 2 ∧
      te.ExpiresAt.ns = (clockAt 100 1).ns + 5 * 1000000000 ∧
      te.ExpiresAt.ns - te.CreatedAt.ns = 5 * 1000000000 - ((clockAt 100 2).ns - (clockAt 100 1).ns) ∧
      (clockAt 100 2 = clockAt 100 1 → te.ExpiresAt.ns - te.CreatedAt.ns = 5 * 1000000000) :=
  ⟨by decide, by decide,
   issued_record_lifetime (reliableEnv acceptingRemote) "lab1" 5 (clockAt 100 0) (clockAt 100 1)
     (clockAt 100 2) lab1World (by decide) (by decide) (by decide)⟩

/-! ## C6: an existing token ID -/

/-- C6 fails as stated: with the record of a first token read of second 100 stored under
token_lab1_100, a second token read for lab1 in the same second generates the same token ID,
succeeds, and replaces the record (remote token T0) by its own (remote token T2). -/
theorem issue_replaces_existing :
    (tokenRecord issuedWorld.storage "token_lab1_100").map (fun te => te.Token) = some "T0" ∧
    tokenIDFor "lab1" (clockAt 100 900000000) = "token_lab1_100" ∧
    secondIssue.1.succeeded = true ∧
    (tokenRecord secondIssue.2.storage "token_lab1_100").map (fun te => te.Token) =
      some "T2" := by
  decide

theorem eq_ok_of_toOption {α : Type} {x : Except String α} {a : α}
    (h : x.toOption = some a) : x = .ok a := by
  cases x with
  | error e => simp [Except.toOption] at h
  | ok b => simp only [Except.toOption, Option.some.injEq] at h; rw [h]

/-- C6 (amended): a token read makes no check of the token ID it generates, and a record
already stored under that token ID does not make it fail. Whenever the connection resolves,
the remote acquisition succeeds, the record is encoded and the storage put succeeds, the read
returns the success response with the new remote token, and the record that was stored under
the token ID is replaced by the new record (IsActive = true). -/
theorem issue_on_existing_id (env : Env) (name : String) (ttl : Int)
    (tID tExp tCreated : Time) (w : World) (old : TokenEntry) (client : Client)
    (tokenResp : TokenResponse)
    (hold : tokenRecord w.storage (tokenIDFor name tID) = some old)
    (hname : name ≠ "")
    (hclient : (getF5Client env w name).1 = .ok client)
    (htoken : (GetToken env client ttl (getF5Client env w name).2).1 = .ok tokenResp)
    (hjson : env.tokenJSONErr ⟨tokenResp.Token, name, tCreated, tExp.Add (secondsDuration ttl),
      true⟩ = none)
    (hput : (storagePut env (GetToken env client ttl (getF5Client env w name).2).2
      ("tokens/" ++ tokenIDFor name tID)
      (encodeTokenEntry ⟨tokenResp.Token, name, tCreated, tExp.Add (secondsDuration ttl),
        true⟩)).1 = none) :
    (pathTokenRead env name ttl tID tExp tCreated w).1 =
      .resp ⟨[("token_id", .scalar (.str (tokenIDFor name tID))),
              ("token", .scalar (.str tokenResp.Token)),
              ("host", .scalar (.str name)),
              ("expires_at", .scalar (.rfc3339 (tExp.Add (secondsDuration ttl)).Unix)),
              ("ttl", .scalar (.int ttl))]⟩ ∧
    (pathTokenRead env name ttl tID tExp tCreated w).1.succeeded = true ∧
    tokenRecord (pathTokenRead env name ttl tID tExp tCreated w).2.storage
      (tokenIDFor name tID) =
      some ⟨tokenResp.Token, name, tCreated, tExp.Add (secondsDuration ttl), true⟩ ∧
    (pathTokenRead env name ttl tID tExp tCreated w).2.storage =
      kvPut w.storage ("tokens/" ++ tokenIDFor name tID)
        (encodeTokenEntry ⟨tokenResp.Token, name, tCreated, tExp.Add (secondsDuration ttl),
          true⟩) := by
  have hreply : (pathTokenRead env name ttl tID tExp tCreated w).1 =
      .resp ⟨[("token_id", .scalar (.str (tokenIDFor name tID))),
              ("token", .scalar (.str tokenResp.Token)),
              ("host", .scalar (.str name)),
              ("expires_at", .scalar (.rfc3339 (tExp.Add (secondsDuration ttl)).Unix)),
              ("ttl", .scalar (.int ttl))]⟩ ∧
      (pathTokenRead env name ttl tID tExp tCreated w).2.storage =
        kvPut w.storage ("tokens/" ++ tokenIDFor name tID)
          (encodeTokenEntry ⟨tokenResp.Token, name, tCreated, tExp.Add (secondsDuration ttl),
            true⟩) := by
    unfold pathTokenRead
    simp only [hname, if_false]
    rcases hg : getF5Client env w name with ⟨r1, w1⟩
    have hw1 : w1.storage = w.storage := by
      have := getF5Client_storage env w name; rw [hg] at this; exact this
    rw [hg] at hclient htoken hput
    simp only [] at hclient htoken hput
    subst hclient
    simp only []
    rcases ht : GetToken env client ttl w1 with ⟨r2, w2⟩
    have hw2 : w2.storage = w.storage := by
      have := GetToken_storage env client ttl w1; rw [ht] at this; rw [this, hw1]
    rw [ht] at htoken hput
    simp only [] at htoken hput
    subst htoken
    simp only [hjson]
    rcases hp : storagePut env w2 ("tokens/" ++ tokenIDFor name tID)
      (encodeTokenEntry ⟨tokenResp.Token, name, tCreated, tExp.Add (secondsDuration ttl),
        true⟩) with ⟨r3, w3⟩
    rw [hp] at hput
    simp only [] at hput
    subst hput
    rcases storagePut_eq hp with ⟨_, b⟩ | ⟨a, _⟩
    · exact ⟨rfl, by rw [b, hw2]⟩
    · exact absurd rfl a
  refine ⟨hreply.1, ?_, ?_, hreply.2⟩
  · rw [hreply.1]; simp [Reply.succeeded, Response.IsError]
  · rw [hreply.2, tokenRecord_kvPut_same]

/-- Witness for C6 (amended): the second token read of second 100, on the world that holds the
record of the first: the connection resolves, the device returns the token T2, the put
succeeds, and the read succeeds and replaces the record of T0. -/
theorem issue_on_existing_id_witness :
    tokenRecord issuedWorld.storage (tokenIDFor "lab1" (clockAt 100 900000000)) =
      some ⟨"T0", "lab1", clockAt 100 2, clockAt 105 1, true⟩ ∧
    (getF5Client (reliableEnv acceptingRemote) issuedWorld "lab1").1 = .ok lab1Client ∧
    (GetToken (reliableEnv acceptingRemote) lab1Client 5
      (getF5Client (reliableEnv acceptingRemote) issuedWorld "lab1").2).1 =
        .ok ⟨"T2", 5, ""⟩ ∧
    secondIssue.1.succeeded = true ∧
    tokenRecord secondIssue.2.storage (tokenIDFor "lab1" (clockAt 100 900000000)) =
      some ⟨"T2", "lab1", clockAt 100 900000002,
        (clockAt 100 900000001).Add (secondsDuration 5), true⟩ :=
  have h := issue_on_existing_id (reliableEnv acceptingRemote) "lab1" 5 (clockAt 100 900000000)
    (clockAt 100 900000001) (clockAt 100 900000002) issuedWorld
    ⟨"T0", "lab1", clockAt 100 2, clockAt 105 1, true⟩ lab1Client ⟨"T2", 5, ""⟩
    (by decide) (by decide) (eq_ok_of_toOption (by decide)) (eq_ok_of_toOption (by decide))
    rfl (by decide)
  ⟨by decide, eq_ok_of_toOption (by decide), eq_ok_of_toOption (by decide), h.2.1, h.2.2.1⟩

/-! ### The periodic function when storage does not fail -/

theorem tokenRecord_mem_kvList {s : Storage} {tokenID : String} {te : TokenEntry}
    (h : tokenRecord s tokenID = some te) : tokenID ∈ kvList s "tokens/" := by
  unfold tokenRecord at h
  cases h1 : kvGet s ("tokens/" ++ tokenID) with
  | none => simp [h1] at h
  | some v => exact mem_kvList_of_get h1

theorem after_iff (now t : Time) : now.After t = true ↔ t.ns < now.ns := by
  simp [Time.After]

theorem expiredRecord_none_of_not_after {now : Time} {s : Storage} {tokenID : String}
    {te : TokenEntry} (h1 : tokenRecord s tokenID = some te) (h2 : now.ns ≤ te.ExpiresAt.ns) :
    expiredRecord now s tokenID = none := by
  have h3 : now.After te.ExpiresAt = false := by simp [Time.After, h2]
  simp [expiredRecord, h1, h3]

theorem expiredRecord_none_of_dangling {now : Time} {s : Storage} {tokenID : String}
    {te : TokenEntry} (h1 : tokenRecord s tokenID = some te)
    (h2 : kvGet s ("config/connection/" ++ te.Host) = none) :
    expiredRecord now s tokenID = none := by
  simp [expiredRecord, h1, h2]

theorem cleanup_done (env : Env) (now : Time) (w : World) (hS : ∀ k, env.storageErr k = none)
    (hJ : ∀ t, env.tokenJSONErr t = none) {tokenID : String} {c : Client} {te : TokenEntry}
    (h : expiredRecord now w.storage tokenID = some (c, te)) :
    tokenRecord (cleanupExpiredTokens env now w).2.storage tokenID =
      some { te with IsActive := false } ∧
    RemoteCall.revoke c te.Token ∈ (cleanupExpiredTokens env now w).2.calls := by
  obtain ⟨_, hs, hc⟩ := cleanup_ok env now w hS hJ
  obtain ⟨a, b⟩ := fold_sweep_done now (kvList w.storage "tokens/") w.storage tokenID c te
    (tokenRecord_mem_kvList (expiredRecord_some h).1) h
  rw [hs, hc]
  exact ⟨a, List.mem_append_right _ b⟩

theorem cleanup_untouched (env : Env) (now : Time) (w : World)
    (hS : ∀ k, env.storageErr k = none) (hJ : ∀ t, env.tokenJSONErr t = none)
    {tokenID : String} (h : expiredRecord now w.storage tokenID = none) :
    kvGet (cleanupExpiredTokens env now w).2.storage ("tokens/" ++ tokenID) =
      kvGet w.storage ("tokens/" ++ tokenID) := by
  obtain ⟨_, hs, _⟩ := cleanup_ok env now w hS hJ
  rw [hs]
  exact fold_sweep_get_of_none now _ _ _ h

theorem cleanup_added_calls (env : Env) (now : Time) (w : World)
    (hS : ∀ k, env.storageErr k = none) (hJ : ∀ t, env.tokenJSONErr t = none) :
    ∃ added, (cleanupExpiredTokens env now w).2.calls = w.calls ++ added ∧
      ∀ call ∈ added, ∃ tokenID c te,
        expiredRecord now w.storage tokenID = some (c, te) ∧
        call = RemoteCall.revoke c te.Token := by
  obtain ⟨_, _, hc⟩ := cleanup_ok env now w hS hJ
  refine ⟨_, hc, ?_⟩
  intro call hcall
  obtain ⟨t, c, te, _, he, hr⟩ := passCalls_mem now _ _ call hcall
  exact ⟨t, c, te, he, hr⟩

/-! ## C7: which records the pass selects -/

/-- C7 fails as stated: a token issued for lab1 with ttl 5 at second 100 exactly has ExpiresAt
at second 105 exactly; the periodic function run with now equal to that ExpiresAt leaves the
record active and calls the device for no revocation (the log holds the two calls of the
issuance only). -/
theorem cleanup_at_expiry_instant :
    (tokenRecord (runOps (reliableEnv acceptingRemote) lab1World
        [.tokenRead "lab1" 5 (clockAt 100 0) (clockAt 100 0) (clockAt 100 0)]).storage
      "token_lab1_100").map (fun te => (te.ExpiresAt, te.IsActive)) = some (clockAt 105 0, true) ∧
    activeFlag (runOps (reliableEnv acceptingRemote) lab1World
        [.tokenRead "lab1" 5 (clockAt 100 0) (clockAt 100 0) (clockAt 100 0),
         .cleanup (clockAt 105 0)]).storage "token_lab1_100" = some true ∧
    (runOps (reliableEnv acceptingRemote) lab1World
        [.tokenRead "lab1" 5 (clockAt 100 0) (clockAt 100 0) (clockAt 100 0),
         .cleanup (clockAt 105 0)]).calls =
      [.login lab1Client, .updateTimeout lab1Client "T0" 5] := by
  decide

/-- C7 (amended): when storage operations succeed, for every ledger state and every time now,
every record that is active, whose connection resolves and whose ExpiresAt is strictly before
now is revoked on the device (with the client of its connection and its remote token) and
stored with IsActive = false, its other fields unchanged; every record with ExpiresAt >= now,
the instant ExpiresAt = now included, is left as it is; and each device call of the pass is
the revocation of a record that was active with ExpiresAt strictly before now. -/
theorem cleanup_selects_expired (env : Env) (now : Time) (w : World)
    (hS : ∀ k, env.storageErr k = none) (hJ : ∀ t, env.tokenJSONErr t = none) :
    (∀ tokenID te raw conn, tokenRecord w.storage tokenID = some te → te.IsActive = true →
      te.ExpiresAt.ns < now.ns →
      kvGet w.storage ("config/connection/" ++ te.Host) = some raw →
      raw.asConnection = some conn →
      tokenRecord (cleanupExpiredTokens env now w).2.storage tokenID =
        some { te with IsActive := false } ∧
      RemoteCall.revoke (NewClient conn.Host conn.Username conn.Password conn.InsecureSSL)
        te.Token ∈ (cleanupExpiredTokens env now w).2.calls) ∧
    (∀ tokenID te, tokenRecord w.storage tokenID = some te → now.ns ≤ te.ExpiresAt.ns →
      kvGet (cleanupExpiredTokens env now w).2.storage ("tokens/" ++ tokenID) =
        kvGet w.storage ("tokens/" ++ tokenID)) ∧
    (∃ added, (cleanupExpiredTokens env now w).2.calls = w.calls ++ added ∧
      ∀ call ∈ added, ∃ tokenID c te, tokenRecord w.storage tokenID = some te ∧
        te.IsActive = true ∧ te.ExpiresAt.ns < now.ns ∧
        call = RemoteCall.revoke c te.Token) := by
  refine ⟨?_, ?_, ?_⟩
  · intro tokenID te raw conn h1 h2 h3 h4 h5
    exact cleanup_done env now w hS hJ
      (expiredRecord_intro h1 h2 ((after_iff _ _).2 h3) h4 h5)
  · intro tokenID te h1 h2
    exact cleanup_untouched env now w hS hJ (expiredRecord_none_of_not_after h1 h2)
  · obtain ⟨added, ha, hb⟩ := cleanup_added_calls env now w hS hJ
    refine ⟨added, ha, ?_⟩
    intro call hcall
    obtain ⟨t, c, te, he, hr⟩ := hb call hcall
    obtain ⟨e1, e2, e3, _⟩ := expiredRecord_some he
    exact ⟨t, c, te, e1, e2, (after_iff _ _).1 e3, hr⟩

/-- Witness for C7 (amended), the scenario of the specification: a token issued for lab1 with
ttl 5 in second 100, and the periodic function run at second 106. -/
theorem cleanup_selects_expired_witness :
    (∀ k, (reliableEnv acceptingRemote).storageErr k = none) ∧
    (∀ t, (reliableEnv acceptingRemote).tokenJSONErr t = none) ∧
    tokenRecord (cleanupExpiredTokens (reliableEnv acceptingRemote) (clockAt 106 0)
        issuedWorld).2.storage "token_lab1_100" =
      some ⟨"T0", "lab1", clockAt 100 2, clockAt 105 1, false⟩ ∧
    RemoteCall.revoke lab1Client "T0" ∈
      (cleanupExpiredTokens (reliableEnv acceptingRemote) (clockAt 106 0) issuedWorld).2.calls :=
  ⟨fun _ => rfl, fun _ => rfl,
   (cleanup_selects_expired (reliableEnv acceptingRemote) (clockAt 106 0) issuedWorld
      (fun _ => rfl) (fun _ => rfl)).1 "token_lab1_100" ⟨"T0", "lab1", clockAt 100 2, clockAt 105 1, true⟩
      (encodeConnection lab1) lab1 (by decide) rfl (by decide) (by decide) rfl⟩

/-! ## C8: a revocation that fails -/

/-- C8: when storage operations succeed, for every record that is active, has now after its
ExpiresAt and whose connection resolves, if the device answers the revocation of its remote
token with an error, the revocation was nevertheless attempted and the record is stored with
IsActive = false; the pass returns no error, and every other record that is active, has now
after its ExpiresAt and resolves is revoked and deactivated as well. -/
theorem cleanup_revoke_failure (env : Env) (now : Time) (w : World)
    (tokenID : String) (te : TokenEntry) (raw : RawEntry) (conn : Connection) (e : String)
    (hS : ∀ k, env.storageErr k = none) (hJ : ∀ t, env.tokenJSONErr t = none)
    (h1 : tokenRecord w.storage tokenID = some te) (h2 : te.IsActive = true)
    (h3 : now.After te.ExpiresAt = true)
    (h4 : kvGet w.storage ("config/connection/" ++ te.Host) = some raw)
    (h5 : raw.asConnection = some conn)
    (hfail : ∀ hist, env.remote.revoke hist
      (NewClient conn.Host conn.Username conn.Password conn.InsecureSSL) te.Token = some e) :
    (cleanupExpiredTokens env now w).1 = none ∧
    tokenRecord (cleanupExpiredTokens env now w).2.storage tokenID =
      some { te with IsActive := false } ∧
    RemoteCall.revoke (NewClient conn.Host conn.Username conn.Password conn.InsecureSSL)
      te.Token ∈ (cleanupExpiredTokens env now w).2.calls ∧
    (∀ other te2 raw2 conn2, tokenRecord w.storage other = some te2 → te2.IsActive = true →
      now.After te2.ExpiresAt = true →
      kvGet w.storage ("config/connection/" ++ te2.Host) = some raw2 →
      raw2.asConnection = some conn2 →
      tokenRecord (cleanupExpiredTokens env now w).2.storage other =
        some { te2 with IsActive := false } ∧
      RemoteCall.revoke (NewClient conn2.Host conn2.Username conn2.Password conn2.InsecureSSL)
        te2.Token ∈ (cleanupExpiredTokens env now w).2.calls) := by
  obtain ⟨a, b⟩ := cleanup_done env now w hS hJ (expiredRecord_intro h1 h2 h3 h4 h5)
  refine ⟨(cleanup_ok env now w hS hJ).1, a, b, ?_⟩
  intro other te2 raw2 conn2 g1 g2 g3 g4 g5
  exact cleanup_done env now w hS hJ (expiredRecord_intro g1 g2 g3 g4 g5)

/-- Witness for C8: against a device that rejects every revocation, the expired records old1
and old2 of lab1 are both deactivated at second 106 and the pass returns no error. -/
theorem cleanup_revoke_failure_witness :
    (∀ hist, (reliableEnv revokeRejectingRemote).remote.revoke hist
      (NewClient lab1.Host lab1.Username lab1.Password lab1.InsecureSSL) old1Record.Token =
        some "error revoking token: 500 Internal Server Error - ") ∧
    (cleanupExpiredTokens (reliableEnv revokeRejectingRemote) (clockAt 106 0) ledgerWorld).1 = none ∧
    tokenRecord (cleanupExpiredTokens (reliableEnv revokeRejectingRemote) (clockAt 106 0)
      ledgerWorld).2.storage "old1" = some { old1Record with IsActive := false } ∧
    tokenRecord (cleanupExpiredTokens (reliableEnv revokeRejectingRemote) (clockAt 106 0)
      ledgerWorld).2.storage "old2" = some { old2Record with IsActive := false } := by
  have h := cleanup_revoke_failure (reliableEnv revokeRejectingRemote) (clockAt 106 0) ledgerWorld
    "old1" old1Record (encodeConnection lab1) lab1
    "error revoking token: 500 Internal Server Error - "
    (fun _ => rfl) (fun _ => rfl) (by decide) rfl (by decide) (by decide) rfl (fun _ => rfl)
  exact ⟨fun _ => rfl, h.1, h.2.1,
    (h.2.2.2 "old2" old2Record (encodeConnection lab1) lab1
      (by decide) rfl (by decide) (by decide) rfl).1⟩

/-! ## C9: a record whose connection is gone -/

/-- C9: when storage operations succeed, for every ledger with an active record that has now
after its ExpiresAt and whose connection name has no entry in the connection store, the
periodic function returns no error and leaves the entry of that record as it is (still
active); every device call of the pass is the revocation of some other record, one whose
connection is stored; and every other record that is active, has now after its ExpiresAt and
whose connection resolves is revoked and stored with IsActive = false, wherever it comes in
the scan order. -/
theorem cleanup_skips_dangling (env : Env) (now : Time) (w : World)
    (tokenID : String) (te : TokenEntry)
    (hS : ∀ k, env.storageErr k = none) (hJ : ∀ t, env.tokenJSONErr t = none)
    (h1 : tokenRecord w.storage tokenID = some te) (h2 : te.IsActive = true)
    (h3 : now.After te.ExpiresAt = true)
    (h4 : kvGet w.storage ("config/connection/" ++ te.Host) = none) :
    (cleanupExpiredTokens env now w).1 = none ∧
    kvGet (cleanupExpiredTokens env now w).2.storage ("tokens/" ++ tokenID) =
      kvGet w.storage ("tokens/" ++ tokenID) ∧
    tokenRecord (cleanupExpiredTokens env now w).2.storage tokenID = some te ∧
    activeFlag (cleanupExpiredTokens env now w).2.storage tokenID = some true ∧
    (∃ added, (cleanupExpiredTokens env now w).2.calls = w.calls ++ added ∧
      ∀ call ∈ added, ∃ other c te2 raw2, other ≠ tokenID ∧
        tokenRecord w.storage other = some te2 ∧
        kvGet w.storage ("config/connection/" ++ te2.Host) = some raw2 ∧
        call = RemoteCall.revoke c te2.Token) ∧
    (∀ other te2 raw2 conn2, tokenRecord w.storage other = some te2 → te2.IsActive = true →
      now.After te2.ExpiresAt = true →
      kvGet w.storage ("config/connection/" ++ te2.Host) = some raw2 →
      raw2.asConnection = some conn2 →
      tokenRecord (cleanupExpiredTokens env now w).2.storage other =
        some { te2 with IsActive := false } ∧
      RemoteCall.revoke (NewClient conn2.Host conn2.Username conn2.Password conn2.InsecureSSL)
        te2.Token ∈ (cleanupExpiredTokens env now w).2.calls) := by
  have hnone : expiredRecord now w.storage tokenID = none :=
    expiredRecord_none_of_dangling h1 h4
  have hkeep := cleanup_untouched env now w hS hJ hnone
  have hrec : tokenRecord (cleanupExpiredTokens env now w).2.storage tokenID = some te := by
    unfold tokenRecord at h1 ⊢
    rw [hkeep]; exact h1
  refine ⟨(cleanup_ok env now w hS hJ).1, hkeep, hrec, ?_, ?_, ?_⟩
  · rw [activeFlag_eq, hrec]; simp [h2]
  · obtain ⟨added, ha, hb⟩ := cleanup_added_calls env now w hS hJ
    refine ⟨added, ha, ?_⟩
    intro call hcall
    obtain ⟨t, c, te2, he, hr⟩ := hb call hcall
    obtain ⟨e1, _, _, raw2, _, e4, _, _⟩ := expiredRecord_some he
    refine ⟨t, c, te2, raw2, ?_, e1, e4, hr⟩
    intro ht
    rw [ht, hnone] at he
    exact absurd he (by simp)
  · intro other te2 raw2 conn2 g1 g2 g3 g4 g5
    exact cleanup_done env now w hS hJ (expiredRecord_intro g1 g2 g3 g4 g5)

/-- Witness for C9: in the scenario ledger the record `orphan` names the connection `gone`,
which is not stored; at second 106 it is left as it is, while old1 before it and old2 after it
in the scan order are revoked and deactivated, and the two revocations are the only calls. -/
theorem cleanup_skips_dangling_witness :
    kvGet ledgerWorld.storage ("config/connection/" ++ orphanRecord.Host) = none ∧
    (cleanupExpiredTokens (reliableEnv acceptingRemote) (clockAt 106 0) ledgerWorld).1 = none ∧
    tokenRecord (cleanupExpiredTokens (reliableEnv acceptingRemote) (clockAt 106 0)
      ledgerWorld).2.storage "orphan" = some orphanRecord ∧
    tokenRecord (cleanupExpiredTokens (reliableEnv acceptingRemote) (clockAt 106 0)
      ledgerWorld).2.storage "old1" = some { old1Record with IsActive := false } ∧
    tokenRecord (cleanupExpiredTokens (reliableEnv acceptingRemote) (clockAt 106 0)
      ledgerWorld).2.storage "old2" = some { old2Record with IsActive := false } ∧
    (cleanupExpiredTokens (reliableEnv acceptingRemote) (clockAt 106 0) ledgerWorld).2.calls =
      [.revoke lab1Client "A", .revoke lab1Client "B"] := by
  have h := cleanup_skips_dangling (reliableEnv acceptingRemote) (clockAt 106 0) ledgerWorld
    "orphan" orphanRecord (fun _ => rfl) (fun _ => rfl) (by decide) rfl (by decide) (by decide)
  exact ⟨by decide, h.1, h.2.2.1,
    (h.2.2.2.2.2 "old1" old1Record (encodeConnection lab1) lab1
      (by decide) rfl (by decide) (by decide) rfl).1,
    (h.2.2.2.2.2 "old2" old2Record (encodeConnection lab1) lab1
      (by decide) rfl (by decide) (by decide) rfl).1,
    by decide⟩

/-! ## C10: running the pass twice -/

/-- C10: when storage operations succeed, for every ledger state and time now, a second run of
the periodic function at the same now, on the world the first run left, returns no error,
makes no device call (the call log is the one after the first run) and leaves the storage
equal to the storage after the first run, so it deactivates no record. -/
theorem cleanup_twice (env : Env) (now : Time) (w : World)
    (hS : ∀ k, env.storageErr k = none) (hJ : ∀ t, env.tokenJSONErr t = none) :
    (cleanupExpiredTokens env now (cleanupExpiredTokens env now w).2).1 = none ∧
    (cleanupExpiredTokens env now (cleanupExpiredTokens env now w).2).2.calls =
      (cleanupExpiredTokens env now w).2.calls ∧
    (cleanupExpiredTokens env now (cleanupExpiredTokens env now w).2).2.storage =
      (cleanupExpiredTokens env now w).2.storage := by
  obtain ⟨_, hs1, _⟩ := cleanup_ok env now w hS hJ
  obtain ⟨hr2, hs2, hc2⟩ := cleanup_ok env now (cleanupExpiredTokens env now w).2 hS hJ
  have hkeys : kvList (cleanupExpiredTokens env now w).2.storage "tokens/" =
      kvList w.storage "tokens/" := by
    rw [hs1]; exact kvList_congr (fold_sweep_keys now _ _) _
  have hidle : ∀ tokenID ∈ kvList (cleanupExpiredTokens env now w).2.storage "tokens/",
      expiredRecord now (cleanupExpiredTokens env now w).2.storage tokenID = none := by
    intro t ht
    rw [hkeys] at ht
    rw [hs1, fold_sweep_expired, if_pos ht]
  obtain ⟨a, b⟩ := fold_sweep_idle now _ _ hidle
  refine ⟨hr2, ?_, ?_⟩
  · rw [hc2, b, List.append_nil]
  · rw [hs2, a]

/-- Witness for C10: the scenario ledger swept twice at second 106. -/
theorem cleanup_twice_witness :
    (∀ k, (reliableEnv acceptingRemote).storageErr k = none) ∧
    (∀ t, (reliableEnv acceptingRemote).tokenJSONErr t = none) ∧
    (cleanupExpiredTokens (reliableEnv acceptingRemote) (clockAt 106 0)
      (cleanupExpiredTokens (reliableEnv acceptingRemote) (clockAt 106 0) ledgerWorld).2).1 = none ∧
    (cleanupExpiredTokens (reliableEnv acceptingRemote) (clockAt 106 0)
      (cleanupExpiredTokens (reliableEnv acceptingRemote) (clockAt 106 0) ledgerWorld).2).2.calls =
      (cleanupExpiredTokens (reliableEnv acceptingRemote) (clockAt 106 0) ledgerWorld).2.calls ∧
    (cleanupExpiredTokens (reliableEnv acceptingRemote) (clockAt 106 0)
      (cleanupExpiredTokens (reliableEnv acceptingRemote) (clockAt 106 0) ledgerWorld).2).2.storage =
      (cleanupExpiredTokens (reliableEnv acceptingRemote) (clockAt 106 0) ledgerWorld).2.storage :=
  ⟨fun _ => rfl, fun _ => rfl,
   cleanup_twice (reliableEnv acceptingRemote) (clockAt 106 0) ledgerWorld
     (fun _ => rfl) (fun _ => rfl)⟩

/-! ## C11: the token listing -/

theorem tokensListStep_ok (env : Env) (clock : Nat → Time) (now : Time) (st : ListLoop)
    (tokenID : String) (hS : ∀ k, env.storageErr k = none) (hclock : ∀ k, clock k = now) :
    (tokensListStep env clock st tokenID).tokenDetails =
      st.tokenDetails ++ (liveDetail now st.world.storage tokenID).toList := by
  unfold tokensListStep liveDetail tokenRecord tokenDetail
  simp only [storageGet, hS, hclock]
  cases h1 : kvGet st.world.storage ("tokens/" ++ tokenID) with
  | none => simp
  | some raw =>
    cases h2 : raw.asTokenEntry with
    | none => simp [h2]
    | some te =>
      cases h3 : te.IsActive with
      | false => simp [h2, h3]
      | true =>
        cases h4 : now.After te.ExpiresAt with
        | false => simp [h2, h3, h4]
        | true => simp [h2, h3, h4]

theorem tokensList_fold_ok (env : Env) (clock : Nat → Time) (now : Time)
    (hS : ∀ k, env.storageErr k = none) (hclock : ∀ k, clock k = now) (ids : List String)
    (st : ListLoop) :
    (ids.foldl (tokensListStep env clock) st).tokenDetails =
      st.tokenDetails ++ ids.filterMap (liveDetail now st.world.storage) := by
  induction ids generalizing st with
  | nil => simp
  | cons x xs ih =>
    simp only [List.foldl_cons]
    rw [ih, tokensListStep_ok env clock now st x hS hclock, tokensListStep_storage,
      List.append_assoc]
    cases h : liveDetail now st.world.storage x <;> simp [List.filterMap_cons, h]

theorem pathTokensListRead_ok (env : Env) (clock : Nat → Time) (now : Time) (w : World)
    (hS : ∀ k, env.storageErr k = none) (hclock : ∀ k, clock k = now) :
    (pathTokensListRead env clock w).1 =
      .resp ⟨[("tokens",
        .details ((kvList w.storage "tokens/").filterMap (liveDetail now w.storage)))]⟩ := by
  unfold pathTokensListRead
  simp only [storageList, hS]
  rw [tokensList_fold_ok env clock now hS hclock]
  simp

theorem kvGet_eraseTokens (s : Storage) (k : String) :
    kvGet (eraseTokens s) k = (kvGet s k).map RawEntry.withoutToken := by
  unfold eraseTokens
  induction s with
  | nil => rfl
  | cons e rest ih =>
    simp only [List.map_cons, kvGet_cons, ih]
    by_cases h : e.1 = k <;> simp [h]

theorem liveDetail_eraseTokens (now : Time) (s : Storage) (tokenID : String) :
    liveDetail now (eraseTokens s) tokenID = liveDetail now s tokenID := by
  unfold liveDetail tokenRecord
  rw [kvGet_eraseTokens]
  cases h1 : kvGet s ("tokens/" ++ tokenID) with
  | none => rfl
  | some raw =>
    cases h2 : raw.asTokenEntry with
    | none => simp [RawEntry.withoutToken, h2]
    | some te => simp [RawEntry.withoutToken, h2]

theorem kvList_eraseTokens (s : Storage) (pre : String) :
    kvList (eraseTokens s) pre = kvList s pre := by
  apply kvList_congr
  simp [eraseTokens, List.map_map, Function.comp_def]

theorem liveDetail_some {now : Time} {s : Storage} {tokenID : String} {d : Detail}
    (h : liveDetail now s tokenID = some d) :
    ∃ te, tokenRecord s tokenID = some te ∧ te.IsActive = true ∧
      now.After te.ExpiresAt = false ∧
      d = tokenDetail tokenID te.Host te.CreatedAt te.ExpiresAt true := by
  unfold liveDetail at h
  cases h1 : tokenRecord s tokenID with
  | none => simp [h1] at h
  | some te =>
    simp only [h1] at h
    by_cases h2 : te.IsActive = true ∧ now.After te.ExpiresAt = false
    · simp only [h2, and_self, if_true, Option.some.injEq] at h
      exact ⟨te, rfl, h2.1, h2.2, h.symm⟩
    · simp [h2] at h

theorem tokensListStep_cases (env : Env) (clock : Nat → Time) (st : ListLoop)
    (tokenID : String) :
    (tokensListStep env clock st tokenID).tokenDetails = st.tokenDetails ∨
    ∃ te, tokenRecord st.world.storage tokenID = some te ∧ te.IsActive = true ∧
      (clock st.reads).After te.ExpiresAt = false ∧
      (tokensListStep env clock st tokenID).tokenDetails =
        st.tokenDetails ++ [tokenDetail tokenID te.Host te.CreatedAt te.ExpiresAt true] := by
  unfold tokensListStep tokenRecord tokenDetail
  simp only [storageGet]
  cases h0 : env.storageErr st.world.ops with
  | some e => simp
  | none =>
    cases h1 : kvGet st.world.storage ("tokens/" ++ tokenID) with
    | none => simp
    | some raw =>
      cases h2 : raw.asTokenEntry with
      | none => simp [h2]
      | some te =>
        cases h3 : te.IsActive with
        | false => simp [h2, h3]
        | true =>
          cases h4 : (clock st.reads).After te.ExpiresAt with
          | false => simp [h2, h3, h4]
          | true => simp [h2, h3, h4]

theorem tokensList_fold_sound (env : Env) (clock : Nat → Time) (s : Storage)
    (ids : List String) (st : ListLoop) (hs : st.world.storage = s)
    (hst : ∀ d ∈ st.tokenDetails, ∃ tokenID te k, tokenRecord s tokenID = some te ∧
      te.IsActive = true ∧ (clock k).After te.ExpiresAt = false ∧
      d = tokenDetail tokenID te.Host te.CreatedAt te.ExpiresAt true) :
    ∀ d ∈ (ids.foldl (tokensListStep env clock) st).tokenDetails,
      ∃ tokenID te k, tokenRecord s tokenID = some te ∧ te.IsActive = true ∧
        (clock k).After te.ExpiresAt = false ∧
        d = tokenDetail tokenID te.Host te.CreatedAt te.ExpiresAt true := by
  induction ids generalizing st with
  | nil => exact hst
  | cons x xs ih =>
    simp only [List.foldl_cons]
    apply ih
    · rw [tokensListStep_storage, hs]
    · intro d hd
      rcases tokensListStep_cases env clock st x with h | ⟨te, h1, h2, h3, h4⟩
      · rw [h] at hd; exact hst d hd
      · rw [h4, List.mem_append, List.mem_singleton] at hd
        rcases hd with hd | hd
        · exact hst d hd
        · exact ⟨x, te, st.reads, by rw [← hs]; exact h1, h2, h3, hd⟩

/-- Whatever the storage faults and the clock readings of the request, every item of a token
listing belongs to a record that is stored, has IsActive = true and was not expired at one of
the clock readings of the request. -/
theorem tokens_list_sound (env : Env) (clock : Nat → Time) (w : World) (items : List Detail)
    (h : (pathTokensListRead env clock w).1 = .resp ⟨[("tokens", .details items)]⟩) :
    ∀ d ∈ items, ∃ tokenID te k, tokenRecord w.storage tokenID = some te ∧
      te.IsActive = true ∧ (clock k).After te.ExpiresAt = false ∧
      d = tokenDetail tokenID te.Host te.CreatedAt te.ExpiresAt true := by
  unfold pathTokensListRead at h
  rcases hl : storageList env w "tokens/" with ⟨r, w1⟩
  have hw : w1.storage = w.storage := by
    have := storageList_storage env w "tokens/"; rw [hl] at this; exact this
  rw [hl] at h
  cases r with
  | error e => simp at h
  | ok ids =>
    simp only [Reply.resp.injEq, Response.mk.injEq, List.cons.injEq, Prod.mk.injEq,
      Value.details.injEq, true_and, and_true] at h
    rw [← h]
    exact tokensList_fold_sound env clock w.storage ids ⟨w1, 0, []⟩ hw (by simp)

/-- C11: when the storage operations of the request succeed and its clock readings show the
time now, the token listing returns, in storage list order, exactly the items of the token
IDs whose record decodes, has IsActive = true and is not expired at now (now is not after
ExpiresAt): one item per listed key. Each item is made of the token ID, Host, CreatedAt,
ExpiresAt and IsActive of the record and carries the five fields token_id, host, created_at,
expires_at and active only. The response is the same when the remote token value of every
record is blanked out, so no remote token value is in it; and the storage is not changed. -/
theorem tokens_list_live (env : Env) (clock : Nat → Time) (now : Time) (w : World)
    (hS : ∀ k, env.storageErr k = none) (hclock : ∀ k, clock k = now) :
    (pathTokensListRead env clock w).1 =
      .resp ⟨[("tokens",
        .details ((kvList w.storage "tokens/").filterMap (liveDetail now w.storage)))]⟩ ∧
    (∀ tokenID d, liveDetail now w.storage tokenID = some d ↔
      ∃ te, tokenRecord w.storage tokenID = some te ∧ te.IsActive = true ∧
        now.After te.ExpiresAt = false ∧
        d = [("token_id", .str tokenID), ("host", .str te.Host),
             ("created_at", .rfc3339 te.CreatedAt.Unix),
             ("expires_at", .rfc3339 te.ExpiresAt.Unix), ("active", .bool true)]) ∧
    (∀ d ∈ (kvList w.storage "tokens/").filterMap (liveDetail now w.storage),
      d.map Prod.fst = ["token_id", "host", "created_at", "expires_at", "active"]) ∧
    (pathTokensListRead env clock { w with storage := eraseTokens w.storage }).1 =
      (pathTokensListRead env clock w).1 ∧
    (pathTokensListRead env clock w).2.storage = w.storage := by
  refine ⟨pathTokensListRead_ok env clock now w hS hclock, ?_, ?_, ?_,
    pathTokensListRead_storage env clock w⟩
  · intro tokenID d
    constructor
    · intro h
      obtain ⟨te, a, b, c, e⟩ := liveDetail_some h
      exact ⟨te, a, b, c, e⟩
    · rintro ⟨te, a, b, c, e⟩
      simp [liveDetail, a, b, c, e, tokenDetail]
  · intro d hd
    obtain ⟨tokenID, _, h⟩ := List.mem_filterMap.1 hd
    obtain ⟨te, _, _, _, e⟩ := liveDetail_some h
    rw [e]; rfl
  · rw [pathTokensListRead_ok env clock now _ hS hclock,
      pathTokensListRead_ok env clock now w hS hclock]
    have hfun : liveDetail now (eraseTokens w.storage) = liveDetail now w.storage :=
      funext (liveDetail_eraseTokens now w.storage)
    simp only [kvList_eraseTokens, hfun]

/-- Witness for C11: the scenario ledger with a deactivated record added, listed at second
106. Of old1, orphan and old2 (expired at second 105), live (expiring at second 200) and done
(inactive), the listing shows live alone. -/
theorem tokens_list_live_witness :
    (∀ k, (reliableEnv acceptingRemote).storageErr k = none) ∧
    (∀ k, listingClock k = clockAt 106 0) ∧
    (kvList mixedWorld.storage "tokens/").filterMap (liveDetail (clockAt 106 0)
      mixedWorld.storage) =
      [[("token_id", .str "live"), ("host", .str "lab1"), ("created_at", .rfc3339 100),
        ("expires_at", .rfc3339 200), ("active", .bool true)]] ∧
    (pathTokensListRead (reliableEnv acceptingRemote) listingClock mixedWorld).1 =
      .resp ⟨[("tokens",
        .details ((kvList mixedWorld.storage "tokens/").filterMap (liveDetail (clockAt 106 0)
          mixedWorld.storage)))]⟩ :=
  ⟨fun _ => rfl, fun _ => rfl, by decide,
   (tokens_list_live (reliableEnv acceptingRemote) listingClock (clockAt 106 0) mixedWorld
     (fun _ => rfl) (fun _ => rfl)).1⟩

/-! ## C12: what the periodic function leaves alone -/

theorem DeactivatedFrom.refl (s : Storage) : DeactivatedFrom s s :=
  ⟨rfl, fun _ => Or.inl rfl⟩

theorem DeactivatedFrom.trans {s s1 s2 : Storage} (h1 : DeactivatedFrom s s1)
    (h2 : DeactivatedFrom s1 s2) : DeactivatedFrom s s2 := by
  refine ⟨h2.1.trans h1.1, ?_⟩
  intro k
  rcases h2.2 k with e2 | ⟨tokenID, te, hk, hrec, hact, hput⟩
  · rcases h1.2 k with e1 | ⟨t1, te1, hk1, hrec1, hact1, hput1⟩
    · exact Or.inl (e2.trans e1)
    · exact Or.inr ⟨t1, te1, hk1, hrec1, hact1, e2.trans hput1⟩
  · rcases h1.2 k with e1 | ⟨t1, te1, hk1, hrec1, hact1, hput1⟩
    · refine Or.inr ⟨tokenID, te, hk, ?_, hact, hput⟩
      unfold tokenRecord at hrec ⊢
      rw [← hk, ← e1, hk]; exact hrec
    · exfalso
      unfold tokenRecord at hrec
      rw [← hk, hput1] at hrec
      simp only [encodeTokenEntry, Option.some_bind, Option.some.injEq] at hrec
      rw [← hrec] at hact
      simp at hact

theorem DeactivatedFrom.put {s : Storage} {tokenID : String} {te : TokenEntry}
    (h1 : tokenRecord s tokenID = some te) (h2 : te.IsActive = true) :
    DeactivatedFrom s
      (kvPut s ("tokens/" ++ tokenID) (encodeTokenEntry { te with IsActive := false })) := by
  refine ⟨kvPut_keys_of_mem s _ _ (tokenRecord_isSome_get h1), ?_⟩
  intro k
  by_cases hk : k = "tokens/" ++ tokenID
  · exact Or.inr ⟨tokenID, te, hk, h1, h2, by rw [hk]; exact kvGet_kvPut_same _ _ _⟩
  · exact Or.inl (kvGet_kvPut_ne _ _ hk)

theorem cleanupStep_frame (env : Env) (now : Time) (w : World) (tokenID : String) :
    DeactivatedFrom w.storage (cleanupStep env now w tokenID).storage := by
  rcases cleanupStep_cases env now w tokenID with h | ⟨te, h1, h2, _, h4⟩
  · rw [h]; exact DeactivatedFrom.refl _
  · rw [h4]; exact DeactivatedFrom.put h1 h2

theorem cleanup_fold_frame (env : Env) (now : Time) (ids : List String) (w : World) :
    DeactivatedFrom w.storage (ids.foldl (cleanupStep env now) w).storage := by
  induction ids generalizing w with
  | nil => exact DeactivatedFrom.refl _
  | cons x xs ih =>
    simp only [List.foldl_cons]
    exact (cleanupStep_frame env now w x).trans (ih _)

theorem cleanupExpiredTokens_frame (env : Env) (now : Time) (w : World) :
    DeactivatedFrom w.storage (cleanupExpiredTokens env now w).2.storage := by
  unfold cleanupExpiredTokens
  rcases hl : storageList env w "tokens/" with ⟨r, w1⟩
  have hw : w1.storage = w.storage := by
    have := storageList_storage env w "tokens/"; rw [hl] at this; exact this
  cases r with
  | error e => simp only [hw]; exact DeactivatedFrom.refl _
  | ok ids =>
    simp only []
    rw [← hw]
    exact cleanup_fold_frame env now ids w1

theorem startsWith_tokens_of_eq {k tokenID : String} (h : k = "tokens/" ++ tokenID) :
    startsWith k "tokens/" = true := by
  rw [h]; exact startsWith_append _ _

/-- C12: for every storage state, every time now, every device and whatever storage
operations fail, the periodic function changes nothing in the storage except the IsActive
flag of token records, from true to false: the keys are the same, in the same order, so the
keys under tokens/ are the same and no record is added or deleted; every record that decodes
before still decodes after, with the same Token, Host, CreatedAt and ExpiresAt, and with the
same IsActive or with IsActive gone from true to false; the value under each key is the one
before, or the key is a token key whose record was active and the value is that record
encoded with IsActive = false; and no entry under config/connection/, nor under any key
outside tokens/, is changed. -/
theorem cleanup_frame (env : Env) (now : Time) (w : World) :
    (cleanupExpiredTokens env now w).2.storage.map Prod.fst = w.storage.map Prod.fst ∧
    kvList (cleanupExpiredTokens env now w).2.storage "tokens/" = kvList w.storage "tokens/" ∧
    (∀ tokenID te, tokenRecord w.storage tokenID = some te →
      ∃ te1, tokenRecord (cleanupExpiredTokens env now w).2.storage tokenID = some te1 ∧
        te1.Token = te.Token ∧ te1.Host = te.Host ∧ te1.CreatedAt = te.CreatedAt ∧
        te1.ExpiresAt = te.ExpiresAt ∧
        (te1.IsActive = te.IsActive ∨ (te.IsActive = true ∧ te1.IsActive = false))) ∧
    (∀ k, kvGet (cleanupExpiredTokens env now w).2.storage k = kvGet w.storage k ∨
      ∃ tokenID te, k = "tokens/" ++ tokenID ∧ tokenRecord w.storage tokenID = some te ∧
        te.IsActive = true ∧
        kvGet (cleanupExpiredTokens env now w).2.storage k =
          some (encodeTokenEntry { te with IsActive := false })) ∧
    (∀ name, kvGet (cleanupExpiredTokens env now w).2.storage ("config/connection/" ++ name) =
      kvGet w.storage ("config/connection/" ++ name)) ∧
    (∀ k, startsWith k "tokens/" = false →
      kvGet (cleanupExpiredTokens env now w).2.storage k = kvGet w.storage k) := by
  obtain ⟨hkeys, hget⟩ := cleanupExpiredTokens_frame env now w
  have hout : ∀ k, startsWith k "tokens/" = false →
      kvGet (cleanupExpiredTokens env now w).2.storage k = kvGet w.storage k := by
    intro k hk
    rcases hget k with e | ⟨tokenID, _, hk1, _, _, _⟩
    · exact e
    · rw [startsWith_tokens_of_eq hk1] at hk; exact absurd hk (by simp)
  refine ⟨hkeys, kvList_congr hkeys _, ?_, hget, ?_, hout⟩
  · intro tokenID te hrec
    rcases hget ("tokens/" ++ tokenID) with e | ⟨t2, te2, hk, hrec2, hact, hput⟩
    · refine ⟨te, ?_, rfl, rfl, rfl, rfl, Or.inl rfl⟩
      unfold tokenRecord at hrec ⊢
      rw [e]; exact hrec
    · have ht : tokenID = t2 := append_left_cancel hk
      subst ht
      rw [hrec] at hrec2
      simp only [Option.some.injEq] at hrec2
      subst hrec2
      refine ⟨{ te with IsActive := false }, ?_, rfl, rfl, rfl, rfl, Or.inr ⟨hact, rfl⟩⟩
      unfold tokenRecord
      rw [hput]; rfl
  · intro name
    rcases hget ("config/connection/" ++ name) with e | ⟨tokenID, _, hk, _, _, _⟩
    · exact e
    · exact absurd hk.symm (tokens_ne_connection _ _)

end bigiptoken
